import Mathlib

/-!
# The dry-run differ of `internal/build/diff.go`

A shallow embedding of `Builder.Diff`, the sops override (`diffSopsSecret`,
`applySopsDiff`, `sopsComparableByKeys`) and the inventory differ
(`diffInventory`, `listMetaInInventory`), with the properties their
specification states about them.

Conventions of the embedding.

* A Go `map[string]interface{}` is a list of entries; the order of the list is
  the order in which `range` visits the map, so a statement that holds for every
  list holds for every iteration order.
* A Go `error` is its message. A `multierror` is the list of the errors appended
  to it, `[]` standing for `nil`.
* A run-time panic (a failed type assertion) is `none`.
* Everything `diff.go` calls but does not define (the resource manager of the cluster,
  the operating system, the base64, yaml, dyff, bunt, cli-utils and ssa libraries,
  and the constants `mask` and `dataField` declared elsewhere in the package) is a
  field of `Env`: a deterministic function of its arguments. Of the set difference
  and of the sort `Env` also holds what they guarantee, whatever order they return.
-/

namespace Build

/-! ## Data model -/

/-- A Go `error`, represented by its message. -/
abbrev Error := String

/-- A dynamically typed value (`interface{}`), as far as `diff.go` inspects it:
a string, a `map[string]interface{}`, or a value of any other dynamic type. -/
inductive Any where
  | str (s : String)
  | map (entries : List (String × Any))
  | other (tag : Nat)

/-- The test `_, ok := v.(string)`. -/
def Any.isStr : Any → Bool
  | .str _ => true
  | _ => false

/-- The assignment `m[k] = v` on a map held as a list of entries: the entry with
key `k` gets the value `v`, a new entry is added when there is none. -/
def mapSet : List (String × Any) → String → Any → List (String × Any)
  | [], k, v => [(k, v)]
  | (k0, v0) :: rest, k, v =>
    if k0 = k then (k, v) :: rest else (k0, v0) :: mapSet rest k v

/-- The keys of a map, in iteration order. -/
def mapKeys (m : List (String × Any)) : List String := m.map Prod.fst

/-- An `unstructured.Unstructured`: the group, version, kind, namespace and name
its accessors read and write, and the other top-level fields of the document
(`Object`), among them the payload `data`. -/
structure Unstructured where
  Group : String
  Version : String
  Kind : String
  Namespace : String
  Name : String
  Object : List (String × Any)

/-- A `schema.GroupKind`. -/
structure GroupKind where
  Group : String
  Kind : String
deriving DecidableEq, Repr

/-- An `object.ObjMetadata`: the identity of an object. -/
structure ObjMetadata where
  Namespace : String
  Name : String
  GroupKind : GroupKind
deriving DecidableEq, Repr

/-- A `kustomizev1.ResourceRef`: one inventory entry. -/
structure ResourceRef where
  ID : String
  Version : String
deriving DecidableEq, Repr

/-- A `kustomizev1.ResourceInventory`. -/
structure ResourceInventory where
  Entries : List ResourceRef
deriving DecidableEq, Repr

/-- An `ssa.ChangeSetEntry`. -/
structure ChangeSetEntry where
  ObjMetadata : ObjMetadata
  GroupVersion : String
  Subject : String
  Action : String
deriving DecidableEq, Repr

/-- The value of `ssa.CreatedAction`. -/
def CreatedAction : String := "created"

/-- The value of `ssa.ConfiguredAction`. -/
def ConfiguredAction : String := "configured"

/-- The value of `ssa.UnchangedAction`. -/
def UnchangedAction : String := "unchanged"

/-- The three colours `Builder.Diff` passes to `writeString`. -/
inductive Color where
  | Green
  | WhiteSmoke
  | OrangeRed
deriving DecidableEq, Repr

/-- The progress spinner of a `Builder`: the errors `Start` and `Stop` return. -/
structure Spinner where
  Start : Option Error
  Stop : Option Error

/-- The field `Spec` of a `Kustomization`, as far as `Diff` reads it. -/
structure KustomizationSpec where
  Prune : Bool

/-- The field `Status` of a `Kustomization`, as far as `Diff` reads it. -/
structure KustomizationStatus where
  Inventory : Option ResourceInventory

/-- A `kustomizev1.Kustomization`. -/
structure Kustomization where
  Spec : KustomizationSpec
  Status : KustomizationStatus

/-- The fields of a `Builder` that `Diff` reads, and the result of its method
`Build`, which is defined outside `diff.go`. -/
structure Builder where
  kustomization : Kustomization
  spinner : Option Spinner
  Build : Except Error (List Nat)

/-- Everything `diff.go` uses and does not define. -/
structure Env where
  /-- The package constant `mask`, as bytes. -/
  mask : List Nat
  /-- The package constant `dataField`. -/
  dataField : String
  /-- The bytes `base64.StdEncoding.DecodeString` returns (its error is only printed). -/
  DecodeString : String → List Nat
  /-- The function `object.ParseObjMetadata`. -/
  ParseObjMetadata : String → Except Error ObjMetadata
  /-- The method `ObjMetadata.String`. -/
  ObjMetadataString : ObjMetadata → String
  /-- The method `ObjMetadataSet.Diff`: the identities of `setA` that are not in
  `setB`, in the order in which the library reads them from a Go map. -/
  SetDiff : List ObjMetadata → List ObjMetadata → List ObjMetadata
  /-- The method `ObjMetadataSet.Diff` returns the identities of `setA` that are not in
  `setB`. -/
  setDiffMem : ∀ setA setB a, a ∈ SetDiff setA setB ↔ a ∈ setA ∧ a ∉ setB
  /-- The method `ObjMetadataSet.Diff` returns each identity once. -/
  setDiffNodup : ∀ setA setB, (SetDiff setA setB).Nodup
  /-- The call `sort.Sort(ssa.SortableUnstructureds(objects))`. -/
  SortUnstructureds : List Unstructured → List Unstructured
  /-- The call `sort.Sort` rearranges the objects: it adds and drops none. -/
  sortPerm : ∀ objects, (SortUnstructureds objects).Perm objects
  /-- The function `ssa.FmtUnstructured`. -/
  FmtUnstructured : Unstructured → String
  /-- The call `bunt.Style(t, bunt.EachLine(), bunt.Foreground(color))`. -/
  Style : String → Color → String
  /-- The function `ssa.ReadObjects`. -/
  ReadObjects : List Nat → Except Error (List Unstructured)
  /-- The function `ssa.SetNativeKindsDefaults`, which updates the objects in place. -/
  SetNativeKindsDefaults : List Unstructured → Except Error (List Unstructured)
  /-- The method `ResourceManager.Diff`, a dry run against the cluster. An error it
  returns is a single error, which `multierror.Append` adds as one element. -/
  ResourceManagerDiff :
    Unstructured → Except Error (ChangeSetEntry × Option Unstructured × Option Unstructured)
  /-- The call `os.MkdirTemp("", "")`. -/
  MkdirTemp : Except Error String
  /-- The function `yaml.Marshal` (its error is dropped). -/
  Marshal : Option Unstructured → List Nat
  /-- The function `filepath.Join`. -/
  Join : String → String → String
  /-- The function `os.WriteFile`: the error it returns, if any. -/
  WriteFile : String → List Nat → Option Error
  /-- The function `ytbx.LoadFiles`. -/
  LoadFiles : String → String → Except Error (String × String)
  /-- The function `dyff.CompareInputFiles`. -/
  CompareInputFiles : String → String → Except Error String
  /-- The method `HumanReport.WriteReport`: the text of the report, or an error. -/
  WriteReport : String → Except Error String

/-! ## Byte strings and sorting -/

/-- The test `bytes.HasPrefix(b, p)`. -/
def startsWith : List Nat → List Nat → Bool
  | _, [] => true
  | [], _ :: _ => false
  | b :: bs, p :: ps => b == p && startsWith bs ps

/-- The test `bytes.Contains(b, sub)`. -/
def bytesContains : List Nat → List Nat → Bool
  | [], sub => startsWith [] sub
  | b :: bs, sub => startsWith (b :: bs) sub || bytesContains bs sub

/-- Lexicographic `≤` on sequences of code units. -/
def leCodes : List Nat → List Nat → Bool
  | [], _ => true
  | _ :: _, [] => false
  | a :: as, b :: bs => a < b || (a == b && leCodes as bs)

/-- The code points of a string. -/
def codes (s : String) : List Nat := s.data.map Char.toNat

/-- The order `sort.Strings` sorts by. -/
def strLe (a b : String) : Prop := leCodes (codes a) (codes b) = true

instance strLe.decidable : DecidableRel strLe := fun a b =>
  inferInstanceAs (Decidable (leCodes (codes a) (codes b) = true))

/-- The call `sort.Strings(keys)`. -/
def sortStrings (keys : List String) : List String := List.insertionSort strLe keys

/-! ## The sops override -/

/-- The masking constant `sopsComparableByKeys` writes over every payload value. -/
def masked : Any := Any.str "*****"

/-- The loop `for k := range m { m[k] = "*****" }` of `sopsComparableByKeys`: every
entry of the map keeps its key and gets the masking constant as its value. -/
def maskValues (m : List (String × Any)) : List (String × Any) :=
  m.map (fun kv => (kv.1, masked))

/-- The objects `diffSopsSecret` may update: the live object, the merged object
and the change-set entry. -/
structure SopsState where
  liveObject : Option Unstructured
  mergedObject : Option Unstructured
  change : ChangeSetEntry

/-- The function `sopsComparableByKeys`: the sorted keys of the `data` map of the
object, and the object with every value of that map overwritten. `none` is the
panic of the type assertion `.(map[string]interface{})`. -/
def sopsComparableByKeys (env : Env) (object : Unstructured) :
    Option (List String × Unstructured) :=
  match object.Object.lookup env.dataField with
  | some (Any.map m) =>
    let m1 := maskValues m
    let keys := sortStrings (mapKeys m)
    some (keys, { object with Object := mapSet object.Object env.dataField (Any.map m1) })
  | _ => none

/-- One iteration of the loop of `applySopsDiff`, for the value `v`. The type
assertion `v.(string)` panics on a value that is no string; `cmp.Diff` of two string
slices is the empty string exactly when the slices are equal. -/
def applySopsDiffStep (env : Env) (st : SopsState) (v : Any) : Option SopsState :=
  match v with
  | Any.str s =>
    if bytesContains (env.DecodeString s) env.mask then
      match st.liveObject, st.mergedObject with
      | some liveObject, some mergedObject =>
        match sopsComparableByKeys env liveObject with
        | none => none
        | some (liveKeys, liveObject1) =>
          match sopsComparableByKeys env mergedObject with
          | none => none
          | some (mergedKeys, mergedObject1) =>
            some
              { liveObject := some liveObject1
                mergedObject := some mergedObject1
                change :=
                  { st.change with
                    Action := if liveKeys ≠ mergedKeys then ConfiguredAction else UnchangedAction } }
      | _, _ => some st
    else some st
  | _ => none

/-- The function `applySopsDiff`: the loop over the desired `data` map. -/
def applySopsDiff (env : Env) : List (String × Any) → SopsState → Option SopsState
  | [], st => some st
  | (_, v) :: rest, st =>
    match applySopsDiffStep env st v with
    | none => none
    | some st1 => applySopsDiff env rest st1

/-- The function `diffSopsSecret`. -/
def diffSopsSecret (env : Env) (obj : Unstructured) (st : SopsState) : Option SopsState :=
  match obj.Object.lookup env.dataField with
  | some (Any.map m) => applySopsDiff env m st
  | _ => some st

/-! ## The inventory differ -/

/-- The function `listMetaInInventory`. -/
def listMetaInInventory (env : Env) : List ResourceRef → Except Error (List ObjMetadata)
  | [] => .ok []
  | e :: rest =>
    match env.ParseObjMetadata e.ID with
    | .error err => .error err
    | .ok m =>
      match listMetaInInventory env rest with
      | .error err => .error err
      | .ok metas => .ok (m :: metas)

/-- The closure `versionOf` of `diffInventory`. -/
def versionOf (env : Env) (i : ResourceInventory) (objMetadata : ObjMetadata) : String :=
  match i.Entries.find? (fun entry => decide (entry.ID = env.ObjMetadataString objMetadata)) with
  | some entry => entry.Version
  | none => ""

/-- The placeholder object `diffInventory` builds for one identity. -/
def placeholder (env : Env) (inv : ResourceInventory) (metadata : ObjMetadata) : Unstructured :=
  { Group := metadata.GroupKind.Group
    Kind := metadata.GroupKind.Kind
    Version := versionOf env inv metadata
    Name := metadata.Name
    Namespace := metadata.Namespace
    Object := [] }

/-- The function `diffInventory`: the objects of `inv` that do not exist in `target`. -/
def diffInventory (env : Env) (inv target : ResourceInventory) :
    Except Error (List Unstructured) :=
  match listMetaInInventory env inv.Entries with
  | .error err => .error err
  | .ok aList =>
    match listMetaInInventory env target.Entries with
    | .error err => .error err
    | .ok bList =>
      let list := env.SetDiff aList bList
      if list.length = 0 then .ok []
      else .ok (env.SortUnstructureds (list.map (placeholder env inv)))

/-- The function `newInventory`. -/
def newInventory : ResourceInventory := { Entries := [] }

/-- The function `addObjectsToInventory`, for an entry that is not `nil`. -/
def addObjectsToInventory (env : Env) (inv : ResourceInventory) (entry : ChangeSetEntry) :
    ResourceInventory :=
  { Entries := inv.Entries ++
      [{ ID := env.ObjMetadataString entry.ObjMetadata, Version := entry.GroupVersion }] }

/-! ## `Builder.Diff` -/

/-- The function `writeString`. -/
def writeString (env : Env) (t : String) (color : Color) : String := env.Style t color

/-- The function `writeYamls`: the paths of the two files and of their directory. -/
def writeYamls (env : Env) (liveObject mergedObject : Option Unstructured) :
    Except Error (String × String × String) :=
  match env.MkdirTemp with
  | .error err => .error err
  | .ok tmpDir =>
    let liveYAML := env.Marshal liveObject
    let liveFile := env.Join tmpDir "live.yaml"
    match env.WriteFile liveFile liveYAML with
    | some err => .error err
    | none =>
      let mergedYAML := env.Marshal mergedObject
      let mergedFile := env.Join tmpDir "merged.yaml"
      match env.WriteFile mergedFile mergedYAML with
      | some err => .error err
      | none => .ok (liveFile, mergedFile, tmpDir)

/-- The function `diff`: the text it writes to `output`, or its error. -/
def diff (env : Env) (liveFile mergedFile : String) : Except Error String :=
  match env.LoadFiles liveFile mergedFile with
  | .error err => .error ("failed to load input files: " ++ err)
  | .ok (fromFile, toFile) =>
    match env.CompareInputFiles fromFile toFile with
    | .error err => .error ("failed to compare input files: " ++ err)
    | .ok report =>
      match env.WriteReport report with
      | .error err => .error ("failed to print report: " ++ err)
      | .ok text => .ok text

/-- The variables the loop of `Builder.Diff` updates. -/
structure LoopState where
  output : String
  createdOrDrifted : Bool
  diffErrs : List Error
  newInventory : ResourceInventory

/-- The ways the loop of `Builder.Diff` stops early: a `return "", createdOrDrifted, err`
or a panic. -/
inductive Abort where
  | ret (createdOrDrifted : Bool) (err : Error)
  | panic

/-- What lines 96 to 107 of `Builder.Diff` find for one object. -/
inductive Compared where
  /-- The resource manager returned an error. -/
  | failed (err : Error)
  /-- A type assertion of the sops override panicked. -/
  | panicked
  /-- The change-set entry, live and merged object after the sops override. -/
  | done (change : ChangeSetEntry) (liveObject mergedObject : Option Unstructured)

/-- Lines 91 to 107 of `Builder.Diff`: the dry run of one object and the sops
override. The resource manager returns a change-set entry that is not `nil` when
it returns no error. -/
def compareObject (env : Env) (obj : Unstructured) : Compared :=
  match env.ResourceManagerDiff obj with
  | .error err => .failed err
  | .ok (change, liveObject, mergedObject) =>
    if obj.Kind = "Secret" ∧ change.Action = ConfiguredAction then
      match diffSopsSecret env obj
          { liveObject := liveObject, mergedObject := mergedObject, change := change } with
      | none => .panicked
      | some st => .done st.change st.liveObject st.mergedObject
    else .done change liveObject mergedObject

/-- Lines 109 to 130 of `Builder.Diff`: the lines written for one change-set entry,
the flag, and the entry added to the new inventory. -/
def reportChange (env : Env) (st : LoopState) (change : ChangeSetEntry)
    (liveObject mergedObject : Option Unstructured) : Except Abort LoopState :=
  let st1 : LoopState :=
    if change.Action = CreatedAction then
      { st with
        output := st.output ++ writeString env ("► " ++ change.Subject ++ " created\n") .Green
        createdOrDrifted := true }
    else st
  if change.Action = ConfiguredAction then
    let output := st1.output ++ writeString env ("► " ++ change.Subject ++ " drifted\n") .WhiteSmoke
    match writeYamls env liveObject mergedObject with
    | .error err => .error (.ret st1.createdOrDrifted err)
    | .ok (liveFile, mergedFile, _) =>
      match diff env liveFile mergedFile with
      | .error err => .error (.ret st1.createdOrDrifted err)
      | .ok text =>
        .ok
          { output := output ++ text
            createdOrDrifted := true
            diffErrs := st1.diffErrs
            newInventory := addObjectsToInventory env st1.newInventory change }
  else .ok { st1 with newInventory := addObjectsToInventory env st1.newInventory change }

/-- The body of the loop of `Builder.Diff` (lines 91 to 130). -/
def diffObject (env : Env) (st : LoopState) (obj : Unstructured) : Except Abort LoopState :=
  match compareObject env obj with
  | .failed err => .ok { st with diffErrs := st.diffErrs ++ [err] }
  | .panicked => .error .panic
  | .done change liveObject mergedObject => reportChange env st change liveObject mergedObject

/-- The loop of `Builder.Diff` (lines 90 to 131). -/
def diffLoop (env : Env) : List Unstructured → LoopState → Except Abort LoopState
  | [], st => .ok st
  | obj :: rest, st =>
    match diffObject env st obj with
    | .error a => .error a
    | .ok st1 => diffLoop env rest st1

/-- The line written for one object to delete. -/
def deletedLine (env : Env) (object : Unstructured) : String :=
  writeString env ("► " ++ env.FmtUnstructured object ++ " deleted\n") .OrangeRed

/-- Lines 137 to 148 of `Builder.Diff`: the output after the prune step. -/
def pruneStep (env : Env) (b : Builder) (st : LoopState) : Except Error String :=
  if b.kustomization.Spec.Prune = true ∧ st.diffErrs = [] then
    match b.kustomization.Status.Inventory with
    | none => .ok st.output
    | some inventory =>
      match diffInventory env inventory st.newInventory with
      | .error err => .error err
      | .ok diffObjects =>
        .ok (diffObjects.foldl (fun output object => output ++ deletedLine env object) st.output)
  else .ok st.output

/-- The `return` statement a run of `Builder.Diff` ends at. -/
inductive Outcome where
  /-- One of the statements `return "", createdOrDrifted, err`. -/
  | early (createdOrDrifted : Bool) (err : Error)
  /-- The last statement, `return output.String(), createdOrDrifted, diffErrs`. -/
  | final (output : String) (createdOrDrifted : Bool) (diffErrs : List Error)
  /-- No return: the run panicked. -/
  | panic

/-- Lines 58 to 85 of `Builder.Diff`: the desired objects, or the error returned
before the first comparison. (`b.Manager` returns no error.) -/
def desiredObjects (env : Env) (b : Builder) : Except Error (List Unstructured) :=
  match b.Build with
  | .error err => .error err
  | .ok res =>
    match env.ReadObjects res with
    | .error err => .error err
    | .ok objects =>
      match env.SetNativeKindsDefaults objects with
      | .error err => .error err
      | .ok objects1 =>
        match b.spinner with
        | none => .ok objects1
        | some spinner =>
          match spinner.Start with
          | some err => .error ("failed to start spinner: " ++ err)
          | none => .ok objects1

/-- The state of the loop of `Builder.Diff` before its first iteration. -/
def initialState : LoopState :=
  { output := "", createdOrDrifted := false, diffErrs := [], newInventory := newInventory }

/-- Lines 150 to 155 of `Builder.Diff`: the error of stopping the spinner. -/
def stopSpinner (b : Builder) : Option Error :=
  match b.spinner with
  | none => none
  | some spinner =>
    match spinner.Stop with
    | some err => some ("failed to stop spinner: " ++ err)
    | none => none

/-- Lines 87 to 157 of `Builder.Diff`: the comparison pass over the desired objects. -/
def comparisonPass (env : Env) (b : Builder) (objects : List Unstructured) : Outcome :=
  match diffLoop env objects initialState with
  | .error (.ret createdOrDrifted err) => .early createdOrDrifted err
  | .error .panic => .panic
  | .ok st =>
    match pruneStep env b st with
    | .error err => .early st.createdOrDrifted err
    | .ok output =>
      match stopSpinner b with
      | some err => .early st.createdOrDrifted err
      | none => .final output st.createdOrDrifted st.diffErrs

/-- The `return` statement the run of `Builder.Diff` ends at. -/
def diffOutcome (env : Env) (b : Builder) : Outcome :=
  match desiredObjects env b with
  | .error err => .early false err
  | .ok objects => comparisonPass env b objects

/-- The `error` a run of `Builder.Diff` returns: one error, or the `multierror` that
`diffErrs` holds. -/
inductive DiffError where
  | single (err : Error)
  | multi (errs : List Error)
deriving DecidableEq, Repr

/-- The value of the variable `diffErrs` as an `error`: `nil` when nothing was appended. -/
def diffErrsValue (diffErrs : List Error) : Option DiffError :=
  if diffErrs = [] then none else some (.multi diffErrs)

/-- The method `Builder.Diff`: the report, the flag and the error it returns; `none`
when it panics. -/
def Diff (env : Env) (b : Builder) : Option (String × Bool × Option DiffError) :=
  match diffOutcome env b with
  | .early createdOrDrifted err => some ("", createdOrDrifted, some (.single err))
  | .final output createdOrDrifted diffErrs =>
    some (output, createdOrDrifted, diffErrsValue diffErrs)
  | .panic => none

/-! ## A concrete environment

The libraries as they behave on well-formed input, and a small cluster, for the
examples. The general theorems below hold for every `Env`. -/

/-- The value of one character of the standard base64 alphabet. -/
def base64Value (c : Char) : Option Nat :=
  let n := c.toNat
  if 65 ≤ n ∧ n ≤ 90 then some (n - 65)
  else if 97 ≤ n ∧ n ≤ 122 then some (n - 71)
  else if 48 ≤ n ∧ n ≤ 57 then some (n + 4)
  else if n = 43 then some 62
  else if n = 47 then some 63
  else none

/-- Standard base64 decoding with padding, four characters at a time; decoding
stops at the first group that is not well formed. -/
def base64Decode : List Char → List Nat
  | a :: b :: c :: d :: rest =>
    match base64Value a, base64Value b with
    | some x, some y =>
      if c = '=' ∧ d = '=' then [x * 4 + y / 16]
      else
        match base64Value c with
        | none => []
        | some z =>
          if d = '=' then [x * 4 + y / 16, (y % 16) * 16 + z / 4]
          else
            match base64Value d with
            | none => []
            | some w =>
              (x * 4 + y / 16) :: ((y % 16) * 16 + z / 4) :: ((z % 4) * 64 + w) ::
                base64Decode rest
    | _, _ => []
  | _ => []

/-- The bytes `base64.StdEncoding.DecodeString` returns for a string: line breaks are
skipped, the rest is decoded group by group. -/
def base64DecodeString (s : String) : List Nat :=
  base64Decode (s.data.filter (fun c => !(c == Char.ofNat 10 || c == Char.ofNat 13)))

/-- The part of a string before the first `sep` and the part after it
(`strings.Index`). -/
def splitFirst (sep : Char) : List Char → Option (List Char × List Char)
  | [] => none
  | c :: cs =>
    if c = sep then some ([], cs)
    else
      match splitFirst sep cs with
      | none => none
      | some (before, after) => some (c :: before, after)

/-- The part of a string before the last `sep` and the part after it
(`strings.LastIndex`). -/
def splitLast (sep : Char) (s : List Char) : Option (List Char × List Char) :=
  match splitFirst sep s.reverse with
  | none => none
  | some (after, before) => some (before.reverse, after.reverse)

/-- The call `strings.ReplaceAll(name, "__", ":")`. -/
def decodeColons : List Char → List Char
  | '_' :: '_' :: rest => ':' :: decodeColons rest
  | c :: rest => c :: decodeColons rest
  | [] => []

/-- The call `strings.ReplaceAll(name, ":", "__")`. -/
def encodeColons : List Char → List Char
  | [] => []
  | c :: rest => if c = ':' then '_' :: '_' :: encodeColons rest else c :: encodeColons rest

/-- The function `object.ParseObjMetadata` of cli-utils on the identity format
`namespace_name_group_kind`. -/
def cliParseObjMetadata (id : String) : Except Error ObjMetadata :=
  match splitFirst '_' id.data with
  | none => .error ("unable to parse stored object metadata: " ++ id)
  | some (ns, s1) =>
    match splitLast '_' s1 with
    | none => .error ("unable to parse stored object metadata: " ++ String.mk s1)
    | some (s2, kind) =>
      match splitLast '_' s2 with
      | none => .error ("unable to parse stored object metadata: " ++ String.mk s2)
      | some (name0, group) =>
        let name := decodeColons name0
        if '_' ∈ name then .error ("too many fields within: " ++ String.mk s2)
        else
          .ok
            { Namespace := String.mk ns
              Name := String.mk name
              GroupKind := { Group := String.mk group, Kind := String.mk kind } }

/-- The group and kinds of `object.RBACGroupKind`, whose names may hold a colon. -/
def isRBACGroupKind (gk : GroupKind) : Bool :=
  gk.Group = "rbac.authorization.k8s.io" ∧
    (gk.Kind = "Role" ∨ gk.Kind = "ClusterRole" ∨ gk.Kind = "RoleBinding" ∨
      gk.Kind = "ClusterRoleBinding")

/-- The method `ObjMetadata.String` of cli-utils. -/
def cliObjMetadataString (o : ObjMetadata) : String :=
  o.Namespace ++ "_" ++
    (if isRBACGroupKind o.GroupKind = true then String.mk (encodeColons o.Name.data) else o.Name) ++
    "_" ++ o.GroupKind.Group ++ "_" ++ o.GroupKind.Kind

/-- The method `ObjMetadataSet.Diff` of cli-utils: the elements of `setA` that are
not in `setB`, each once. -/
def cliSetDiff (setA setB : List ObjMetadata) : List ObjMetadata :=
  (setA.filter (fun a => decide (a ∉ setB))).dedup

/-- The text `Kind/namespace/name` that `ssa.FmtUnstructured` gives an object. -/
def ssaFmtUnstructured (u : Unstructured) : String :=
  u.Kind ++ "/" ++ (if u.Namespace = "" then "" else u.Namespace ++ "/") ++ u.Name

/-- A sort of objects by their text `Kind/namespace/name`, in the place of the order
of `ssa.SortableUnstructureds` (kinds in the order they are applied, then namespace
and name). -/
def sortByText (objects : List Unstructured) : List Unstructured :=
  List.insertionSort (fun u v => strLe (ssaFmtUnstructured u) (ssaFmtUnstructured v)) objects

/-- An object of the examples. -/
def exampleObject (kind name : String) (object : List (String × Any)) : Unstructured :=
  { Group := if kind = "Deployment" then "apps" else ""
    Version := "v1"
    Kind := kind
    Namespace := "default"
    Name := name
    Object := object }

/-- The change-set entry the resource manager of the examples returns for an object. -/
def exampleChange (obj : Unstructured) (action : String) : ChangeSetEntry :=
  { ObjMetadata :=
      { Namespace := obj.Namespace
        Name := obj.Name
        GroupKind := { Group := obj.Group, Kind := obj.Kind } }
    GroupVersion := obj.Version
    Subject := ssaFmtUnstructured obj
    Action := action }

/-- The cluster of the examples. It holds no object `objA`; it holds `objB` as
desired; it holds a Secret and a ConfigMap `drifted` that differ from the desired
ones, with live payload `live` and payload after the dry run `merged`; the dry run
of an object named `broken` fails. -/
def exampleManager (live merged : List (String × Any)) (obj : Unstructured) :
    Except Error (ChangeSetEntry × Option Unstructured × Option Unstructured) :=
  if obj.Name = "broken" then .error ("dry-run failed for " ++ ssaFmtUnstructured obj)
  else if obj.Name = "objA" then .ok (exampleChange obj CreatedAction, none, none)
  else if obj.Kind = "Secret" ∨ obj.Name = "drifted" then
    .ok (exampleChange obj ConfiguredAction,
      some { obj with Object := [("data", Any.map live)] },
      some { obj with Object := [("data", Any.map merged)] })
  else .ok (exampleChange obj UnchangedAction, none, none)

/-- The environment of the examples: `mask` is `**SOPS**`, `dataField` is `data`,
the build renders `objects`, nothing fails, and the field-level diff of two files
is the text `(diff)`. -/
def exampleEnv (objects : List Unstructured) (live merged : List (String × Any)) : Env :=
  { mask := [42, 42, 83, 79, 80, 83, 42, 42]
    dataField := "data"
    DecodeString := base64DecodeString
    ParseObjMetadata := cliParseObjMetadata
    ObjMetadataString := cliObjMetadataString
    SetDiff := cliSetDiff
    setDiffMem := fun setA setB a => by
      simp [cliSetDiff, List.mem_dedup, List.mem_filter]
    setDiffNodup := fun setA setB => List.nodup_dedup _
    SortUnstructureds := sortByText
    sortPerm := fun objects => List.perm_insertionSort _ objects
    FmtUnstructured := ssaFmtUnstructured
    Style := fun t _ => t
    ReadObjects := fun _ => .ok objects
    SetNativeKindsDefaults := fun objects => .ok objects
    ResourceManagerDiff := exampleManager live merged
    MkdirTemp := .ok "/tmp/1"
    Marshal := fun _ => []
    Join := fun dir file => dir ++ "/" ++ file
    WriteFile := fun _ _ => none
    LoadFiles := fun liveFile mergedFile => .ok (liveFile, mergedFile)
    CompareInputFiles := fun _ _ => .ok "(diff)\n"
    WriteReport := fun report => .ok report }

/-- A builder of the examples, without a spinner. -/
def exampleBuilder (prune : Bool) (inventory : Option ResourceInventory) : Builder :=
  { kustomization := { Spec := { Prune := prune }, Status := { Inventory := inventory } }
    spinner := none
    Build := .ok [] }

/-! ## Notions the properties are stated with -/

/-- The `data` map of an object, when it has one. -/
def dataMap (env : Env) (object : Unstructured) : Option (List (String × Any)) :=
  match object.Object.lookup env.dataField with
  | some (Any.map m) => some m
  | _ => none

/-- The object `object` with the map `m` as its `data`, every value masked. -/
def maskObject (env : Env) (object : Unstructured) (m : List (String × Any)) : Unstructured :=
  { object with Object := mapSet object.Object env.dataField (Any.map (maskValues m)) }

/-- A value of the desired `data` map is encrypted: it is a string whose
base64-decoded bytes contain `mask`. -/
def isEncrypted (env : Env) (v : Any) : Bool :=
  match v with
  | Any.str s => bytesContains (env.DecodeString s) env.mask
  | _ => false

/-- The action the sops override decides on: `unchanged` when the sorted key
sequences of the live and the merged `data` are equal, `configured` otherwise. -/
def sopsAction (liveData mergedData : List (String × Any)) : String :=
  if sortStrings (mapKeys liveData) = sortStrings (mapKeys mergedData) then UnchangedAction
  else ConfiguredAction

/-- The objects after the sops override has applied to the live object `l` with
`data` map `lm` and the merged object `mg` with `data` map `mm`. -/
def overridden (env : Env) (st : SopsState) (l mg : Unstructured)
    (lm mm : List (String × Any)) : SopsState :=
  { liveObject := some (maskObject env l lm)
    mergedObject := some (maskObject env mg mm)
    change := { st.change with Action := sopsAction lm mm } }

/-- The object `object` with the map `m` as its `data`. -/
def withData (env : Env) (object : Unstructured) (m : List (String × Any)) : Unstructured :=
  { object with Object := mapSet object.Object env.dataField (Any.map m) }

/-- The identity of an object (`object.UnstructuredToObjMetadata`). -/
def identityOf (u : Unstructured) : ObjMetadata :=
  { Namespace := u.Namespace, Name := u.Name, GroupKind := { Group := u.Group, Kind := u.Kind } }

/-- The identity an inventory entry parses to, when it parses. -/
def metaOf (env : Env) (e : ResourceRef) : Option ObjMetadata :=
  match env.ParseObjMetadata e.ID with
  | .ok m => some m
  | .error _ => none

/-- The placeholder of one inventory entry: the namespace, name, group and kind
parsed from its identity string and the version recorded in the entry. -/
def entryPlaceholder (env : Env) (e : ResourceRef) : Option Unstructured :=
  match env.ParseObjMetadata e.ID with
  | .ok m =>
    some
      { Group := m.GroupKind.Group
        Kind := m.GroupKind.Kind
        Version := e.Version
        Name := m.Name
        Namespace := m.Namespace
        Object := [] }
  | .error _ => none

/-- The error the resource manager returns for an object, if it returns one. -/
def managerError (env : Env) (obj : Unstructured) : Option Error :=
  match env.ResourceManagerDiff obj with
  | .error err => some err
  | .ok _ => none

/-- The comparison of an object succeeded: the resource manager returned no error. -/
def succeeded (env : Env) (obj : Unstructured) : Bool :=
  (managerError env obj).isNone

/-- The field-level diff block of a record: the text `diff` writes for the files
`writeYamls` wrote, nothing when one of the two fails. -/
def nestedDiff (env : Env) (liveObject mergedObject : Option Unstructured) : String :=
  match writeYamls env liveObject mergedObject with
  | .error _ => ""
  | .ok (liveFile, mergedFile, _) =>
    match diff env liveFile mergedFile with
    | .error _ => ""
    | .ok text => text

/-- The block of the report for one object: the created line for a record whose
final action is `created`, the drifted line followed by the field-level diff block for
a record whose final action is `configured`, nothing otherwise. -/
def block (env : Env) (obj : Unstructured) : String :=
  match compareObject env obj with
  | .done change liveObject mergedObject =>
    if change.Action = CreatedAction then
      writeString env ("► " ++ change.Subject ++ " created\n") .Green
    else if change.Action = ConfiguredAction then
      writeString env ("► " ++ change.Subject ++ " drifted\n") .WhiteSmoke ++
        nestedDiff env liveObject mergedObject
    else ""
  | _ => ""

/-- The comparison of an object succeeded with final action `created` or `configured`. -/
def changes (env : Env) (obj : Unstructured) : Bool :=
  match compareObject env obj with
  | .done change _ _ => change.Action = CreatedAction ∨ change.Action = ConfiguredAction
  | _ => false

/-- The inventory entry of an object whose comparison succeeded. -/
def inventoryEntry (env : Env) (obj : Unstructured) : Option ResourceRef :=
  match compareObject env obj with
  | .done change _ _ =>
    some { ID := env.ObjMetadataString change.ObjMetadata, Version := change.GroupVersion }
  | _ => none

/-- Neither the sops override nor the rendering of the record of an object fails:
no panic, and for a record whose final action is `configured` both `writeYamls` and
`diff` return without error. -/
def rendersWell (env : Env) (obj : Unstructured) : Bool :=
  match compareObject env obj with
  | .failed _ => true
  | .panicked => false
  | .done change liveObject mergedObject =>
    if change.Action = ConfiguredAction then
      match writeYamls env liveObject mergedObject with
      | .error _ => false
      | .ok (liveFile, mergedFile, _) =>
        match diff env liveFile mergedFile with
        | .error _ => false
        | .ok _ => true
    else true

/-- The concatenation of a sequence of texts. -/
def concat : List String → String
  | [] => ""
  | s :: rest => s ++ concat rest

/-- The state of the loop of `Builder.Diff` after the objects `objects`, from the
state `st`, when no step of the loop returns early. -/
def stateAfter (env : Env) (st : LoopState) (objects : List Unstructured) : LoopState :=
  { output := st.output ++ concat (objects.map (block env))
    createdOrDrifted := st.createdOrDrifted || objects.any (changes env)
    diffErrs := st.diffErrs ++ objects.filterMap (managerError env)
    newInventory := { Entries := st.newInventory.Entries ++ objects.filterMap (inventoryEntry env) } }

/-- The objects the prune step of `Builder.Diff` reports as deleted after the objects
`objects` were compared without error: those `diffInventory` returns for the old
inventory and the inventory of this run, when pruning is enabled and an old
inventory exists. -/
def deletedObjects (env : Env) (b : Builder) (objects : List Unstructured) : List Unstructured :=
  if b.kustomization.Spec.Prune = true then
    match b.kustomization.Status.Inventory with
    | none => []
    | some inv =>
      match diffInventory env inv { Entries := objects.filterMap (inventoryEntry env) } with
      | .ok deleted => deleted
      | .error _ => []
  else []

/-- The environment of the examples on a full disk: `os.WriteFile` fails. -/
def fullDiskEnv (objects : List Unstructured) (live merged : List (String × Any)) : Env :=
  { exampleEnv objects live merged with WriteFile := fun _ _ => some "no space left on device" }

/-! ## Maps -/

theorem lookup_mapSet (l : List (String × Any)) (k : String) (v : Any) :
    (mapSet l k v).lookup k = some v := by
  induction l with
  | nil => simp [mapSet, List.lookup]
  | cons e rest ih =>
    obtain ⟨k0, v0⟩ := e
    by_cases h : k0 = k
    · simp [mapSet, h, List.lookup]
    · have h2 : (k == k0) = false := by
        simp only [beq_eq_false_iff_ne, ne_eq]
        exact fun h3 => h h3.symm
      simp [mapSet, h, List.lookup, h2, ih]

theorem mapSet_mapSet (l : List (String × Any)) (k : String) (v w : Any) :
    mapSet (mapSet l k v) k w = mapSet l k w := by
  induction l with
  | nil => simp [mapSet]
  | cons e rest ih =>
    obtain ⟨k0, v0⟩ := e
    by_cases h : k0 = k
    · simp [mapSet, h]
    · simp [mapSet, h, ih]

theorem mapKeys_maskValues (m : List (String × Any)) : mapKeys (maskValues m) = mapKeys m := by
  simp [mapKeys, maskValues, List.map_map, Function.comp_def]

theorem maskValues_maskValues (m : List (String × Any)) :
    maskValues (maskValues m) = maskValues m := by
  simp [maskValues, List.map_map, Function.comp_def]

theorem dataMap_eq_some (env : Env) (object : Unstructured) (m : List (String × Any)) :
    dataMap env object = some m ↔ object.Object.lookup env.dataField = some (Any.map m) := by
  unfold dataMap
  split
  · rename_i m1 h
    rw [h]
    constructor
    · intro h1
      cases h1
      rfl
    · intro h1
      cases h1
      rfl
  · rename_i h
    constructor
    · intro h1
      cases h1
    · intro h1
      exact absurd h1 (h m)

theorem dataMap_maskObject (env : Env) (object : Unstructured) (m : List (String × Any)) :
    dataMap env (maskObject env object m) = some (maskValues m) := by
  rw [dataMap_eq_some]
  exact lookup_mapSet _ _ _

theorem maskObject_maskObject (env : Env) (object : Unstructured) (m : List (String × Any)) :
    maskObject env (maskObject env object m) (maskValues m) = maskObject env object m := by
  simp [maskObject, mapSet_mapSet, maskValues_maskValues]

theorem sopsComparableByKeys_eq (env : Env) (object : Unstructured) (m : List (String × Any))
    (h : dataMap env object = some m) :
    sopsComparableByKeys env object = some (sortStrings (mapKeys m), maskObject env object m) := by
  rw [dataMap_eq_some] at h
  simp [sopsComparableByKeys, h, maskObject]

/-! ## The sops override -/

theorem sopsAction_maskValues (lm mm : List (String × Any)) :
    sopsAction (maskValues lm) (maskValues mm) = sopsAction lm mm := by
  simp [sopsAction, mapKeys_maskValues]

theorem overridden_overridden (env : Env) (st : SopsState) (l mg : Unstructured)
    (lm mm : List (String × Any)) :
    overridden env (overridden env st l mg lm mm) (maskObject env l lm) (maskObject env mg mm)
      (maskValues lm) (maskValues mm) = overridden env st l mg lm mm := by
  simp [overridden, maskObject_maskObject, sopsAction_maskValues]

theorem applySopsDiffStep_eq (env : Env) (st : SopsState) (v : Any) (l mg : Unstructured)
    (lm mm : List (String × Any)) (hl : st.liveObject = some l) (hm : st.mergedObject = some mg)
    (hlm : dataMap env l = some lm) (hmm : dataMap env mg = some mm) (hv : v.isStr = true) :
    applySopsDiffStep env st v =
      some (if isEncrypted env v = true then overridden env st l mg lm mm else st) := by
  cases v with
  | str s =>
    by_cases henc : bytesContains (env.DecodeString s) env.mask = true
    · by_cases hk : sortStrings (mapKeys lm) = sortStrings (mapKeys mm)
      · simp [applySopsDiffStep, henc, hl, hm, sopsComparableByKeys_eq env l lm hlm,
          sopsComparableByKeys_eq env mg mm hmm, isEncrypted, overridden, sopsAction, hk]
      · simp [applySopsDiffStep, henc, hl, hm, sopsComparableByKeys_eq env l lm hlm,
          sopsComparableByKeys_eq env mg mm hmm, isEncrypted, overridden, sopsAction, hk]
    · simp [applySopsDiffStep, henc, isEncrypted]
  | map m => simp [Any.isStr] at hv
  | other n => simp [Any.isStr] at hv

theorem applySopsDiff_eq (env : Env) (data : List (String × Any)) :
    ∀ (st : SopsState) (l mg : Unstructured) (lm mm : List (String × Any)),
      (∀ kv ∈ data, kv.2.isStr = true) →
      st.liveObject = some l → st.mergedObject = some mg →
      dataMap env l = some lm → dataMap env mg = some mm →
      applySopsDiff env data st =
        some (if data.any (fun kv => isEncrypted env kv.2) = true
          then overridden env st l mg lm mm else st) := by
  induction data with
  | nil => intro st l mg lm mm _ _ _ _ _; simp [applySopsDiff]
  | cons e rest ih =>
    intro st l mg lm mm hstr hl hm hlm hmm
    obtain ⟨k, v⟩ := e
    have hv : v.isStr = true := hstr (k, v) (List.mem_cons_self _ _)
    have hrest : ∀ kv ∈ rest, kv.2.isStr = true := fun kv h => hstr kv (List.mem_cons_of_mem _ h)
    simp only [applySopsDiff, applySopsDiffStep_eq env st v l mg lm mm hl hm hlm hmm hv]
    by_cases henc : isEncrypted env v = true
    · simp only [henc, if_true]
      rw [ih (overridden env st l mg lm mm) (maskObject env l lm) (maskObject env mg mm)
        (maskValues lm) (maskValues mm) hrest rfl rfl (dataMap_maskObject env l lm)
        (dataMap_maskObject env mg mm), overridden_overridden]
      simp [henc]
    · simp only [henc, Bool.false_eq_true, if_false]
      rw [ih st l mg lm mm hrest hl hm hlm hmm]
      have hf : isEncrypted env v = false := by simpa using henc
      rw [List.any_cons]
      simp only [hf, Bool.false_or]

theorem unchanged_ne_configured : UnchangedAction ≠ ConfiguredAction := by decide

theorem any_isEncrypted_of_mem (env : Env) (data : List (String × Any))
    (h : ∃ kv ∈ data, isEncrypted env kv.2 = true) :
    data.any (fun kv => isEncrypted env kv.2) = true := by
  obtain ⟨kv, hkv, henc⟩ := h
  exact List.any_eq_true.mpr ⟨kv, hkv, henc⟩

/-- The result of `diffSopsSecret` for a desired object whose `data` are strings,
one of them encrypted, with live and merged objects that carry a `data` map. -/
theorem diffSopsSecret_eq (env : Env) (obj l mg : Unstructured) (change : ChangeSetEntry)
    (data lm mm : List (String × Any))
    (hdata : dataMap env obj = some data)
    (hstr : ∀ kv ∈ data, kv.2.isStr = true)
    (hmask : ∃ kv ∈ data, isEncrypted env kv.2 = true)
    (hlm : dataMap env l = some lm) (hmm : dataMap env mg = some mm) :
    diffSopsSecret env obj { liveObject := some l, mergedObject := some mg, change := change } =
      some (overridden env { liveObject := some l, mergedObject := some mg, change := change }
        l mg lm mm) := by
  rw [dataMap_eq_some] at hdata
  simp only [diffSopsSecret, hdata]
  rw [applySopsDiff_eq env data _ l mg lm mm hstr rfl rfl hlm hmm,
    any_isEncrypted_of_mem env data hmask]
  simp

/-! ## Sorting -/

theorem leCodes_total : ∀ a b : List Nat, leCodes a b = true ∨ leCodes b a = true
  | [], _ => by simp [leCodes]
  | _ :: _, [] => by simp [leCodes]
  | a :: as, b :: bs => by
    rcases Nat.lt_trichotomy a b with h | h | h
    · simp [leCodes, h]
    · subst h
      rcases leCodes_total as bs with h1 | h1
      · simp [leCodes, h1]
      · simp [leCodes, h1]
    · simp [leCodes, h]

theorem leCodes_trans : ∀ a b c : List Nat,
    leCodes a b = true → leCodes b c = true → leCodes a c = true
  | [], _, _ => by simp [leCodes]
  | _ :: _, [], _ => by simp [leCodes]
  | _ :: _, _ :: _, [] => by simp [leCodes]
  | a :: as, b :: bs, c :: cs => by
    intro h1 h2
    simp only [leCodes, Bool.or_eq_true, decide_eq_true_eq, Bool.and_eq_true, beq_iff_eq] at h1 h2 ⊢
    rcases h1 with h1 | ⟨h1, h1r⟩
    · rcases h2 with h2 | ⟨h2, _⟩
      · exact Or.inl (Nat.lt_trans h1 h2)
      · exact Or.inl (h2 ▸ h1)
    · rcases h2 with h2 | ⟨h2, h2r⟩
      · exact Or.inl (h1 ▸ h2)
      · exact Or.inr ⟨h1.trans h2, leCodes_trans as bs cs h1r h2r⟩

theorem leCodes_antisymm : ∀ a b : List Nat,
    leCodes a b = true → leCodes b a = true → a = b
  | [], [] => by simp
  | [], _ :: _ => by simp [leCodes]
  | _ :: _, [] => by simp [leCodes]
  | a :: as, b :: bs => by
    intro h1 h2
    simp only [leCodes, Bool.or_eq_true, decide_eq_true_eq, Bool.and_eq_true, beq_iff_eq] at h1 h2
    rcases h1 with h1 | ⟨h1, h1r⟩
    · rcases h2 with h2 | ⟨h2, _⟩
      · omega
      · omega
    · rcases h2 with h2 | ⟨_, h2r⟩
      · omega
      · rw [h1, leCodes_antisymm as bs h1r h2r]

theorem codes_injective (a b : String) (h : codes a = codes b) : a = b := by
  have h1 : a.data = b.data :=
    List.map_injective_iff.mpr (fun x y hxy => Char.ext (UInt32.ext (by simpa [Char.toNat] using hxy))) h
  exact String.ext h1

theorem strLe_total (a b : String) : strLe a b ∨ strLe b a := leCodes_total _ _

theorem strLe_trans (a b c : String) (h1 : strLe a b) (h2 : strLe b c) : strLe a c :=
  leCodes_trans _ _ _ h1 h2

theorem strLe_antisymm (a b : String) (h1 : strLe a b) (h2 : strLe b a) : a = b :=
  codes_injective a b (leCodes_antisymm _ _ h1 h2)

theorem sortStrings_perm (keys : List String) : (sortStrings keys).Perm keys :=
  List.perm_insertionSort strLe keys

theorem sortStrings_eq_iff_perm (ks1 ks2 : List String) :
    sortStrings ks1 = sortStrings ks2 ↔ ks1.Perm ks2 := by
  constructor
  · intro h
    exact ((sortStrings_perm ks1).symm.trans (h ▸ List.Perm.refl _)).trans (sortStrings_perm ks2)
  · intro h
    haveI : IsTotal String strLe := ⟨strLe_total⟩
    haveI : IsTrans String strLe := ⟨strLe_trans⟩
    haveI : IsAntisymm String strLe := ⟨strLe_antisymm⟩
    exact List.eq_of_perm_of_sorted
      (((sortStrings_perm ks1).trans h).trans (sortStrings_perm ks2).symm)
      (List.sorted_insertionSort strLe ks1) (List.sorted_insertionSort strLe ks2)

/-! ## C1 -/

/-- C1. For a desired Secret whose `data` values are all strings, at least one of
them decoding to bytes that contain `mask`, with live and merged objects that both
carry a `data` map, `diffSopsSecret` returns, and the action it leaves is
`unchanged` exactly when the sorted key sequences of the live and the merged `data`
are equal and `configured` exactly when they differ. The action is the same for
every iteration order of the desired `data` and every action the change had before,
and for every other desired, live and merged payload with the same live and merged
keys. -/
theorem C1_sops_action_decided_by_sorted_keys (env : Env) (obj l mg : Unstructured)
    (change : ChangeSetEntry) (data lm mm : List (String × Any))
    (hdata : dataMap env obj = some data)
    (hstr : ∀ kv ∈ data, kv.2.isStr = true)
    (hmask : ∃ kv ∈ data, isEncrypted env kv.2 = true)
    (hlm : dataMap env l = some lm) (hmm : dataMap env mg = some mm) :
    ∃ st, diffSopsSecret env obj { liveObject := some l, mergedObject := some mg, change := change }
        = some st ∧
      (st.change.Action = UnchangedAction ↔
        sortStrings (mapKeys lm) = sortStrings (mapKeys mm)) ∧
      (st.change.Action = ConfiguredAction ↔
        sortStrings (mapKeys lm) ≠ sortStrings (mapKeys mm)) ∧
      (∀ (data1 : List (String × Any)) (change1 : ChangeSetEntry), data1.Perm data →
        ∃ st1, applySopsDiff env data1
            { liveObject := some l, mergedObject := some mg, change := change1 } = some st1 ∧
          st1.change.Action = st.change.Action) ∧
      (∀ (obj1 l1 mg1 : Unstructured) (change1 : ChangeSetEntry)
          (data1 lm1 mm1 : List (String × Any)),
        dataMap env obj1 = some data1 → (∀ kv ∈ data1, kv.2.isStr = true) →
        (∃ kv ∈ data1, isEncrypted env kv.2 = true) →
        dataMap env l1 = some lm1 → dataMap env mg1 = some mm1 →
        (mapKeys lm1).Perm (mapKeys lm) → (mapKeys mm1).Perm (mapKeys mm) →
        ∃ st1, diffSopsSecret env obj1
            { liveObject := some l1, mergedObject := some mg1, change := change1 } = some st1 ∧
          st1.change.Action = st.change.Action) := by
  refine ⟨_, diffSopsSecret_eq env obj l mg change data lm mm hdata hstr hmask hlm hmm, ?_, ?_, ?_, ?_⟩
  · by_cases hk : sortStrings (mapKeys lm) = sortStrings (mapKeys mm)
    · simp [overridden, sopsAction, hk]
    · simp [overridden, sopsAction, hk, unchanged_ne_configured.symm]
  · by_cases hk : sortStrings (mapKeys lm) = sortStrings (mapKeys mm)
    · simp [overridden, sopsAction, hk, unchanged_ne_configured]
    · simp [overridden, sopsAction, hk]
  · intro data1 change1 hperm
    have hstr1 : ∀ kv ∈ data1, kv.2.isStr = true := fun kv h => hstr kv (hperm.mem_iff.mp h)
    have hmask1 : ∃ kv ∈ data1, isEncrypted env kv.2 = true := by
      obtain ⟨kv, hkv, henc⟩ := hmask
      exact ⟨kv, hperm.mem_iff.mpr hkv, henc⟩
    refine ⟨overridden env { liveObject := some l, mergedObject := some mg, change := change1 }
      l mg lm mm, ?_, ?_⟩
    · rw [applySopsDiff_eq env data1 _ l mg lm mm hstr1 rfl rfl hlm hmm,
        any_isEncrypted_of_mem env data1 hmask1]
      simp only [if_true]
    · simp [overridden]
  · intro obj1 l1 mg1 change1 data1 lm1 mm1 hdata1 hstr1 hmask1 hlm1 hmm1 hpl hpm
    refine ⟨_, diffSopsSecret_eq env obj1 l1 mg1 change1 data1 lm1 mm1 hdata1 hstr1 hmask1
      hlm1 hmm1, ?_⟩
    simp [overridden, sopsAction, (sortStrings_eq_iff_perm _ _).mpr hpl,
      (sortStrings_eq_iff_perm _ _).mpr hpm]

/-- C1 at a Secret with the encrypted value `a` and the plain value `b`, whose live
`data` has the keys `a`, `b` and whose merged `data` has the keys `b`, `a` with other
values: the action, `configured` before, is `unchanged` after. -/
theorem C1_sops_action_witness :
    ∃ st, diffSopsSecret (exampleEnv [] [] [])
        (exampleObject "Secret" "creds"
          [("data", Any.map [("a", Any.str "KipTT1BTKio="), ("b", Any.str "aHVudGVyMg==")])])
        { liveObject := some (exampleObject "Secret" "creds"
            [("data", Any.map [("a", Any.str "b2xk"), ("b", Any.str "b2xk")])])
          mergedObject := some (exampleObject "Secret" "creds"
            [("data", Any.map [("b", Any.str "bmV3"), ("a", Any.str "bmV3")])])
          change := exampleChange (exampleObject "Secret" "creds" []) ConfiguredAction } = some st ∧
      st.change.Action = UnchangedAction := by
  obtain ⟨st, h1, h2, _⟩ := C1_sops_action_decided_by_sorted_keys (exampleEnv [] [] [])
    (exampleObject "Secret" "creds"
      [("data", Any.map [("a", Any.str "KipTT1BTKio="), ("b", Any.str "aHVudGVyMg==")])])
    (exampleObject "Secret" "creds"
      [("data", Any.map [("a", Any.str "b2xk"), ("b", Any.str "b2xk")])])
    (exampleObject "Secret" "creds"
      [("data", Any.map [("b", Any.str "bmV3"), ("a", Any.str "bmV3")])])
    (exampleChange (exampleObject "Secret" "creds" []) ConfiguredAction)
    [("a", Any.str "KipTT1BTKio="), ("b", Any.str "aHVudGVyMg==")]
    [("a", Any.str "b2xk"), ("b", Any.str "b2xk")]
    [("b", Any.str "bmV3"), ("a", Any.str "bmV3")]
    rfl (by decide) (by decide) rfl rfl
  exact ⟨st, h1, h2.mpr (by decide)⟩

/-! ## C5 and C8 -/

theorem applySopsDiff_none (env : Env) (data : List (String × Any)) :
    ∀ st : SopsState, (∃ kv ∈ data, kv.2.isStr = false) → applySopsDiff env data st = none := by
  induction data with
  | nil => intro st h; obtain ⟨kv, hkv, _⟩ := h; cases hkv
  | cons e rest ih =>
    intro st h
    obtain ⟨k, v⟩ := e
    cases hstep : applySopsDiffStep env st v with
    | none => simp [applySopsDiff, hstep]
    | some st1 =>
      simp only [applySopsDiff, hstep]
      apply ih
      obtain ⟨kv, hkv, hns⟩ := h
      rcases List.mem_cons.mp hkv with heq | hmem
      · subst heq
        cases v with
        | str s => simp [Any.isStr] at hns
        | map m => simp [applySopsDiffStep] at hstep
        | other n => simp [applySopsDiffStep] at hstep
      · exact ⟨kv, hmem, hns⟩

theorem allStr_or_not (data : List (String × Any)) :
    (∀ kv ∈ data, kv.2.isStr = true) ∨ (∃ kv ∈ data, kv.2.isStr = false) := by
  by_cases h : ∀ kv ∈ data, kv.2.isStr = true
  · exact Or.inl h
  · right
    push_neg at h
    obtain ⟨kv, hkv, hne⟩ := h
    exact ⟨kv, hkv, by simpa using hne⟩

theorem diffSopsSecret_some (env : Env) (obj l mg : Unstructured) (change : ChangeSetEntry)
    (data lm mm : List (String × Any)) (st : SopsState)
    (hdata : dataMap env obj = some data)
    (hmask : ∃ kv ∈ data, isEncrypted env kv.2 = true)
    (hlm : dataMap env l = some lm) (hmm : dataMap env mg = some mm)
    (h : diffSopsSecret env obj { liveObject := some l, mergedObject := some mg, change := change }
      = some st) :
    st = overridden env { liveObject := some l, mergedObject := some mg, change := change }
      l mg lm mm := by
  rcases allStr_or_not data with hstr | hns
  · rw [diffSopsSecret_eq env obj l mg change data lm mm hdata hstr hmask hlm hmm] at h
    exact (Option.some.inj h).symm
  · rw [dataMap_eq_some] at hdata
    simp [diffSopsSecret, hdata, applySopsDiff_none env data _ hns] at h

theorem maskValues_eq_of_keys (m1 m2 : List (String × Any)) (h : mapKeys m1 = mapKeys m2) :
    maskValues m1 = maskValues m2 := by
  have key : ∀ m : List (String × Any), maskValues m = (mapKeys m).map (fun k => (k, masked)) := by
    intro m
    simp [maskValues, mapKeys, List.map_map, Function.comp_def]
  rw [key m1, key m2, h]

theorem dataMap_withData (env : Env) (object : Unstructured) (m : List (String × Any)) :
    dataMap env (withData env object m) = some m := by
  rw [dataMap_eq_some]
  exact lookup_mapSet _ _ _

theorem maskObject_withData (env : Env) (object : Unstructured) (m1 m2 : List (String × Any))
    (h : mapKeys m2 = mapKeys m1) :
    maskObject env (withData env object m2) m2 = maskObject env object m1 := by
  simp [maskObject, withData, mapSet_mapSet, maskValues_eq_of_keys m2 m1 h]

theorem mem_maskValues (m : List (String × Any)) (kv : String × Any) (h : kv ∈ maskValues m) :
    kv.2 = masked := by
  simp only [maskValues, List.mem_map] at h
  obtain ⟨kv0, _, h2⟩ := h
  rw [← h2]

theorem compareObject_secret (env : Env) (obj l mg : Unstructured) (change : ChangeSetEntry)
    (hkind : obj.Kind = "Secret") (hact : change.Action = ConfiguredAction)
    (hman : env.ResourceManagerDiff obj = .ok (change, some l, some mg)) :
    compareObject env obj =
      match diffSopsSecret env obj
          { liveObject := some l, mergedObject := some mg, change := change } with
      | none => .panicked
      | some st => .done st.change st.liveObject st.mergedObject := by
  simp [compareObject, hman, hkind, hact]

/-- C5. For a Secret with a desired `data` value that decodes to bytes containing
`mask` and with live and merged objects that carry a `data` map: whenever
`diffSopsSecret` returns, every value of the live and of the merged `data` map is the
masking constant and both maps have the keys they had; it returns when the desired
`data` values are strings (and panics otherwise, so that no document is rendered);
in `Builder.Diff` the objects handed on to the rendering of the record are these
masked objects; and two runs whose live and merged objects differ only in the values
of `data` yield the same action and the same masked objects. -/
theorem C5_sops_masks_live_and_merged (env : Env) (obj l mg : Unstructured)
    (change : ChangeSetEntry) (data lm mm : List (String × Any))
    (hdata : dataMap env obj = some data)
    (hmask : ∃ kv ∈ data, isEncrypted env kv.2 = true)
    (hlm : dataMap env l = some lm) (hmm : dataMap env mg = some mm) :
    (∀ st, diffSopsSecret env obj
        { liveObject := some l, mergedObject := some mg, change := change } = some st →
      ∃ l1 mg1 lm1 mm1, st.liveObject = some l1 ∧ st.mergedObject = some mg1 ∧
        dataMap env l1 = some lm1 ∧ dataMap env mg1 = some mm1 ∧
        (∀ kv ∈ lm1, kv.2 = Any.str "*****") ∧ (∀ kv ∈ mm1, kv.2 = Any.str "*****") ∧
        mapKeys lm1 = mapKeys lm ∧ mapKeys mm1 = mapKeys mm) ∧
    ((∀ kv ∈ data, kv.2.isStr = true) →
      ∃ st, diffSopsSecret env obj
        { liveObject := some l, mergedObject := some mg, change := change } = some st) ∧
    (obj.Kind = "Secret" → change.Action = ConfiguredAction →
      env.ResourceManagerDiff obj = .ok (change, some l, some mg) →
      ∀ st : LoopState,
        ((∀ kv ∈ data, kv.2.isStr = true) →
          diffObject env st obj =
            reportChange env st { change with Action := sopsAction lm mm }
              (some (maskObject env l lm)) (some (maskObject env mg mm))) ∧
        ((∃ kv ∈ data, kv.2.isStr = false) → diffObject env st obj = .error .panic)) ∧
    (∀ lm2 mm2 : List (String × Any), mapKeys lm2 = mapKeys lm → mapKeys mm2 = mapKeys mm →
      diffSopsSecret env obj
          { liveObject := some (withData env l lm2), mergedObject := some (withData env mg mm2),
            change := change } =
        diffSopsSecret env obj
          { liveObject := some l, mergedObject := some mg, change := change }) := by
  refine ⟨?_, ?_, ?_, ?_⟩
  · intro st hst
    rw [diffSopsSecret_some env obj l mg change data lm mm st hdata hmask hlm hmm hst]
    exact ⟨maskObject env l lm, maskObject env mg mm, maskValues lm, maskValues mm, rfl, rfl,
      dataMap_maskObject env l lm, dataMap_maskObject env mg mm,
      fun kv h => mem_maskValues lm kv h, fun kv h => mem_maskValues mm kv h,
      mapKeys_maskValues lm, mapKeys_maskValues mm⟩
  · intro hstr
    exact ⟨_, diffSopsSecret_eq env obj l mg change data lm mm hdata hstr hmask hlm hmm⟩
  · intro hkind hact hman st
    constructor
    · intro hstr
      simp [diffObject, compareObject_secret env obj l mg change hkind hact hman,
        diffSopsSecret_eq env obj l mg change data lm mm hdata hstr hmask hlm hmm, overridden]
    · intro hns
      have hd := (dataMap_eq_some env obj data).mp hdata
      simp [diffObject, compareObject_secret env obj l mg change hkind hact hman,
        diffSopsSecret, hd, applySopsDiff_none env data _ hns]
  · intro lm2 mm2 hl2 hm2
    rcases allStr_or_not data with hstr | hns
    · rw [diffSopsSecret_eq env obj l mg change data lm mm hdata hstr hmask hlm hmm,
        diffSopsSecret_eq env obj (withData env l lm2) (withData env mg mm2) change data lm2 mm2
          hdata hstr hmask (dataMap_withData env l lm2) (dataMap_withData env mg mm2)]
      simp [overridden, maskObject_withData env l lm lm2 hl2, maskObject_withData env mg mm mm2 hm2,
        sopsAction, hl2, hm2]
    · have hd := (dataMap_eq_some env obj data).mp hdata
      simp [diffSopsSecret, hd, applySopsDiff_none env data _ hns]

/-- C5 at a Secret with the encrypted value `a`, the live payload `a`, `b` and the
merged payload `a`: both payloads come back with every value masked. -/
theorem C5_sops_masks_witness :
    ∃ st l1 mg1 lm1 mm1,
      diffSopsSecret (exampleEnv [] [] [])
        (exampleObject "Secret" "creds"
          [("data", Any.map [("a", Any.str "KipTT1BTKio=")])])
        { liveObject := some (exampleObject "Secret" "creds"
            [("data", Any.map [("a", Any.str "b2xk"), ("b", Any.str "b2xk")])])
          mergedObject := some (exampleObject "Secret" "creds"
            [("data", Any.map [("a", Any.str "bmV3")])])
          change := exampleChange (exampleObject "Secret" "creds" []) ConfiguredAction } = some st ∧
      st.liveObject = some l1 ∧ st.mergedObject = some mg1 ∧
      dataMap (exampleEnv [] [] []) l1 = some lm1 ∧ dataMap (exampleEnv [] [] []) mg1 = some mm1 ∧
      (∀ kv ∈ lm1, kv.2 = Any.str "*****") ∧ (∀ kv ∈ mm1, kv.2 = Any.str "*****") ∧
      mapKeys lm1 = ["a", "b"] ∧ mapKeys mm1 = ["a"] := by
  obtain ⟨h1, h2, _, _⟩ := C5_sops_masks_live_and_merged (exampleEnv [] [] [])
    (exampleObject "Secret" "creds" [("data", Any.map [("a", Any.str "KipTT1BTKio=")])])
    (exampleObject "Secret" "creds"
      [("data", Any.map [("a", Any.str "b2xk"), ("b", Any.str "b2xk")])])
    (exampleObject "Secret" "creds" [("data", Any.map [("a", Any.str "bmV3")])])
    (exampleChange (exampleObject "Secret" "creds" []) ConfiguredAction)
    [("a", Any.str "KipTT1BTKio=")]
    [("a", Any.str "b2xk"), ("b", Any.str "b2xk")]
    [("a", Any.str "bmV3")]
    rfl (by decide) rfl rfl
  obtain ⟨st, hst⟩ := h2 (by decide)
  obtain ⟨l1, mg1, lm1, mm1, ha, hb, hc, hd, he, hf, hg, hh⟩ := h1 st hst
  exact ⟨st, l1, mg1, lm1, mm1, hst, ha, hb, hc, hd, he, hf, hg, hh⟩

theorem perm_of_same_keys (ks1 ks2 : List String) (h1 : ks1.Nodup) (h2 : ks2.Nodup)
    (h : ∀ k, k ∈ ks1 ↔ k ∈ ks2) : ks1.Perm ks2 :=
  (List.perm_ext_iff_of_nodup h1 h2).mpr h

/-- C8, as the code has it. For an object of kind Secret for which the resource
manager signals `configured`, whose desired `data` values are strings, at least one
of them decoding to bytes that contain `mask`, and whose live and merged objects
carry `data` maps with the same key set: the action after the sops override is
`unchanged` whatever the payload values are, and the loop body of `Builder.Diff`
writes nothing for it and leaves the flag as it was. -/
theorem C8_encrypted_secret_with_equal_keys_is_unchanged (env : Env) (obj l mg : Unstructured)
    (change : ChangeSetEntry) (data lm mm : List (String × Any)) (st : LoopState)
    (hkind : obj.Kind = "Secret") (hact : change.Action = ConfiguredAction)
    (hman : env.ResourceManagerDiff obj = .ok (change, some l, some mg))
    (hdata : dataMap env obj = some data)
    (hstr : ∀ kv ∈ data, kv.2.isStr = true)
    (hmask : ∃ kv ∈ data, isEncrypted env kv.2 = true)
    (hlm : dataMap env l = some lm) (hmm : dataMap env mg = some mm)
    (hnl : (mapKeys lm).Nodup) (hnm : (mapKeys mm).Nodup)
    (hkeys : ∀ k, k ∈ mapKeys lm ↔ k ∈ mapKeys mm) :
    compareObject env obj =
      .done { change with Action := UnchangedAction }
        (some (maskObject env l lm)) (some (maskObject env mg mm)) ∧
    ∃ st1, diffObject env st obj = .ok st1 ∧ st1.output = st.output ∧
      st1.createdOrDrifted = st.createdOrDrifted ∧ st1.diffErrs = st.diffErrs := by
  have hsorted : sortStrings (mapKeys lm) = sortStrings (mapKeys mm) :=
    (sortStrings_eq_iff_perm _ _).mpr (perm_of_same_keys _ _ hnl hnm hkeys)
  have hcmp : compareObject env obj =
      .done { change with Action := UnchangedAction }
        (some (maskObject env l lm)) (some (maskObject env mg mm)) := by
    simp [compareObject_secret env obj l mg change hkind hact hman,
      diffSopsSecret_eq env obj l mg change data lm mm hdata hstr hmask hlm hmm, overridden,
      sopsAction, hsorted]
  refine ⟨hcmp, ?_⟩
  have h1 : UnchangedAction ≠ CreatedAction := by decide
  simp [diffObject, hcmp, reportChange, h1, unchanged_ne_configured]

/-- The statement of C8 fails: a Secret with plain (not encrypted) values, live keys
`a`, `b` and merged keys `a`, `b` with other values, for which the resource manager
signals `configured`, keeps the action `configured`, and `Builder.Diff` writes the
drifted line and the field-level diff for it. -/
theorem C8_plain_secret_with_equal_keys_stays_configured :
    mapKeys [("a", Any.str "b2xk"), ("b", Any.str "b2xk")] =
      mapKeys [("a", Any.str "bmV3"), ("b", Any.str "bmV3")] ∧
    compareObject
      (exampleEnv [] [("a", Any.str "b2xk"), ("b", Any.str "b2xk")]
        [("a", Any.str "bmV3"), ("b", Any.str "bmV3")])
      (exampleObject "Secret" "creds"
        [("data", Any.map [("a", Any.str "bmV3"), ("b", Any.str "bmV3")])]) =
      .done
        (exampleChange (exampleObject "Secret" "creds" []) "configured")
        (some (exampleObject "Secret" "creds"
          [("data", Any.map [("a", Any.str "b2xk"), ("b", Any.str "b2xk")])]))
        (some (exampleObject "Secret" "creds"
          [("data", Any.map [("a", Any.str "bmV3"), ("b", Any.str "bmV3")])])) ∧
    Diff
      (exampleEnv
        [exampleObject "Secret" "creds"
          [("data", Any.map [("a", Any.str "bmV3"), ("b", Any.str "bmV3")])]]
        [("a", Any.str "b2xk"), ("b", Any.str "b2xk")]
        [("a", Any.str "bmV3"), ("b", Any.str "bmV3")])
      (exampleBuilder false none) =
      some ("► Secret/default/creds drifted\n(diff)\n", true, none) := by
  refine ⟨rfl, rfl, rfl⟩

/-- The amended C8 at a Secret with an encrypted value, live keys `a`, `b` and merged
keys `b`, `a` with other values. -/
theorem C8_encrypted_secret_witness :
    compareObject
      (exampleEnv [] [("a", Any.str "b2xk"), ("b", Any.str "b2xk")]
        [("b", Any.str "bmV3"), ("a", Any.str "bmV3")])
      (exampleObject "Secret" "creds"
        [("data", Any.map [("a", Any.str "KipTT1BTKio="), ("b", Any.str "bmV3")])]) =
      .done
        (exampleChange (exampleObject "Secret" "creds" []) "unchanged")
        (some (exampleObject "Secret" "creds"
          [("data", Any.map [("a", Any.str "*****"), ("b", Any.str "*****")])]))
        (some (exampleObject "Secret" "creds"
          [("data", Any.map [("b", Any.str "*****"), ("a", Any.str "*****")])])) :=
  (C8_encrypted_secret_with_equal_keys_is_unchanged
    (exampleEnv [] [("a", Any.str "b2xk"), ("b", Any.str "b2xk")]
      [("b", Any.str "bmV3"), ("a", Any.str "bmV3")])
    (exampleObject "Secret" "creds"
      [("data", Any.map [("a", Any.str "KipTT1BTKio="), ("b", Any.str "bmV3")])])
    (exampleObject "Secret" "creds"
      [("data", Any.map [("a", Any.str "b2xk"), ("b", Any.str "b2xk")])])
    (exampleObject "Secret" "creds"
      [("data", Any.map [("b", Any.str "bmV3"), ("a", Any.str "bmV3")])])
    (exampleChange (exampleObject "Secret" "creds" []) ConfiguredAction)
    [("a", Any.str "KipTT1BTKio="), ("b", Any.str "bmV3")]
    [("a", Any.str "b2xk"), ("b", Any.str "b2xk")]
    [("b", Any.str "bmV3"), ("a", Any.str "bmV3")]
    initialState rfl rfl rfl rfl (by decide) (by decide) rfl rfl (by decide) (by decide)
    (by intro k; simp [mapKeys, or_comm])).1

/-! ## The inventory differ -/

theorem metaOf_eq_some (env : Env) (e : ResourceRef) (m : ObjMetadata) :
    metaOf env e = some m ↔ env.ParseObjMetadata e.ID = .ok m := by
  unfold metaOf
  cases h : env.ParseObjMetadata e.ID with
  | error err => simp
  | ok m1 => simp

theorem listMetaInInventory_ok (env : Env) (es : List ResourceRef)
    (h : ∀ e ∈ es, ∃ m, env.ParseObjMetadata e.ID = .ok m) :
    listMetaInInventory env es = .ok (es.filterMap (metaOf env)) := by
  induction es with
  | nil => rfl
  | cons e rest ih =>
    obtain ⟨m, hm⟩ := h e (List.mem_cons_self _ _)
    have hrest := ih (fun e1 h1 => h e1 (List.mem_cons_of_mem _ h1))
    have hmeta : metaOf env e = some m := (metaOf_eq_some env e m).mpr hm
    simp [listMetaInInventory, hm, hrest, List.filterMap_cons, hmeta]

theorem mem_filterMap_metaOf (env : Env) (es : List ResourceRef) (m : ObjMetadata) :
    m ∈ es.filterMap (metaOf env) ↔ ∃ e ∈ es, env.ParseObjMetadata e.ID = .ok m := by
  simp [List.mem_filterMap, metaOf_eq_some]

theorem identityOf_placeholder (env : Env) (inv : ResourceInventory) (m : ObjMetadata) :
    identityOf (placeholder env inv m) = m := by
  cases m with
  | mk ns name gk => cases gk; rfl

theorem map_identityOf_placeholder (env : Env) (inv : ResourceInventory) (l : List ObjMetadata) :
    (l.map (placeholder env inv)).map identityOf = l := by
  rw [List.map_map]
  conv_rhs => rw [← List.map_id l]
  apply List.map_congr_left
  intro m _
  exact identityOf_placeholder env inv m

/-- The result of `diffInventory` when every identity string parses: nothing when
the difference is empty, the sorted placeholders otherwise. -/
theorem diffInventory_ok (env : Env) (inv target : ResourceInventory)
    (hinv : ∀ e ∈ inv.Entries, ∃ m, env.ParseObjMetadata e.ID = .ok m)
    (htarget : ∀ e ∈ target.Entries, ∃ m, env.ParseObjMetadata e.ID = .ok m) :
    diffInventory env inv target =
      .ok (if (env.SetDiff (inv.Entries.filterMap (metaOf env))
              (target.Entries.filterMap (metaOf env))).length = 0 then []
        else env.SortUnstructureds
          ((env.SetDiff (inv.Entries.filterMap (metaOf env))
            (target.Entries.filterMap (metaOf env))).map (placeholder env inv))) := by
  simp only [diffInventory, listMetaInInventory_ok env _ hinv, listMetaInInventory_ok env _ htarget]
  split <;> rfl

theorem diffInventory_perm (env : Env) (inv target : ResourceInventory)
    (hinv : ∀ e ∈ inv.Entries, ∃ m, env.ParseObjMetadata e.ID = .ok m)
    (htarget : ∀ e ∈ target.Entries, ∃ m, env.ParseObjMetadata e.ID = .ok m) :
    ∃ objs, diffInventory env inv target = .ok objs ∧
      objs.Perm ((env.SetDiff (inv.Entries.filterMap (metaOf env))
        (target.Entries.filterMap (metaOf env))).map (placeholder env inv)) := by
  refine ⟨_, diffInventory_ok env inv target hinv htarget, ?_⟩
  split
  · rename_i h
    rw [List.length_eq_zero.mp h]
    exact List.Perm.refl _
  · exact env.sortPerm _

/-- C2. When every identity string of the old and of the new inventory parses,
`diffInventory` returns placeholder objects whose identities are exactly those that
occur in the old inventory and do not occur in the new one, each once. For the old
inventory objA@v1, objB@v1 and the new inventory objB@v1 the result is the one
placeholder for objA. -/
theorem C2_diffInventory_returns_old_minus_new (env : Env) (inv target : ResourceInventory)
    (hinv : ∀ e ∈ inv.Entries, ∃ m, env.ParseObjMetadata e.ID = .ok m)
    (htarget : ∀ e ∈ target.Entries, ∃ m, env.ParseObjMetadata e.ID = .ok m) :
    (∃ objs, diffInventory env inv target = .ok objs ∧
      (objs.map identityOf).Nodup ∧
      (∀ m, m ∈ objs.map identityOf ↔
        (∃ e ∈ inv.Entries, env.ParseObjMetadata e.ID = .ok m) ∧
        ¬ ∃ e ∈ target.Entries, env.ParseObjMetadata e.ID = .ok m) ∧
      (∀ u ∈ objs, u = placeholder env inv (identityOf u))) ∧
    diffInventory (exampleEnv [] [] [])
        { Entries := [{ ID := "default_objA_apps_Deployment", Version := "v1" },
                      { ID := "default_objB_apps_Deployment", Version := "v1" }] }
        { Entries := [{ ID := "default_objB_apps_Deployment", Version := "v1" }] } =
      .ok [{ Group := "apps", Version := "v1", Kind := "Deployment", Namespace := "default",
             Name := "objA", Object := [] }] := by
  refine ⟨?_, rfl⟩
  obtain ⟨objs, hobjs, hperm⟩ := diffInventory_perm env inv target hinv htarget
  have hids : (objs.map identityOf).Perm
      (env.SetDiff (inv.Entries.filterMap (metaOf env))
        (target.Entries.filterMap (metaOf env))) := by
    have := hperm.map identityOf
    rwa [map_identityOf_placeholder] at this
  refine ⟨objs, hobjs, hids.nodup_iff.mpr (env.setDiffNodup _ _), ?_, ?_⟩
  · intro m
    rw [hids.mem_iff, env.setDiffMem, mem_filterMap_metaOf, mem_filterMap_metaOf]
  · intro u hu
    obtain ⟨m, _, hm⟩ := List.mem_map.mp (hperm.mem_iff.mp hu)
    rw [← hm, identityOf_placeholder]

/-- C2 at the inventories of the scenario. -/
theorem C2_diffInventory_witness :
    ∃ objs, diffInventory (exampleEnv [] [] [])
        { Entries := [{ ID := "default_objA_apps_Deployment", Version := "v1" },
                      { ID := "default_objB_apps_Deployment", Version := "v1" }] }
        { Entries := [{ ID := "default_objB_apps_Deployment", Version := "v1" }] } = .ok objs ∧
      (objs.map identityOf).Nodup ∧
      (∀ m, m ∈ objs.map identityOf ↔
        (∃ e ∈ [({ ID := "default_objA_apps_Deployment", Version := "v1" } : ResourceRef),
                { ID := "default_objB_apps_Deployment", Version := "v1" }],
          cliParseObjMetadata e.ID = .ok m) ∧
        ¬ ∃ e ∈ [({ ID := "default_objB_apps_Deployment", Version := "v1" } : ResourceRef)],
          cliParseObjMetadata e.ID = .ok m) := by
  obtain ⟨objs, h1, h2, h3, _⟩ := (C2_diffInventory_returns_old_minus_new (exampleEnv [] [] [])
    { Entries := [{ ID := "default_objA_apps_Deployment", Version := "v1" },
                  { ID := "default_objB_apps_Deployment", Version := "v1" }] }
    { Entries := [{ ID := "default_objB_apps_Deployment", Version := "v1" }] }
    (by
      intro e he
      simp only [List.mem_cons, List.mem_singleton, List.not_mem_nil, or_false] at he
      rcases he with rfl | rfl <;> exact ⟨_, rfl⟩)
    (by
      intro e he
      simp only [List.mem_cons, List.mem_singleton, List.not_mem_nil, or_false] at he
      rcases he with rfl
      exact ⟨_, rfl⟩)).1
  exact ⟨objs, h1, h2, h3⟩

/-! ## C9 -/

theorem entry_eq_of_ID_eq (es : List ResourceRef) (hnodup : (es.map ResourceRef.ID).Nodup)
    (e1 e2 : ResourceRef) (h1 : e1 ∈ es) (h2 : e2 ∈ es) (h : e1.ID = e2.ID) : e1 = e2 :=
  List.inj_on_of_nodup_map hnodup h1 h2 h

theorem find_entry_by_ID (es : List ResourceRef) (hnodup : (es.map ResourceRef.ID).Nodup)
    (e : ResourceRef) (he : e ∈ es) :
    es.find? (fun entry => decide (entry.ID = e.ID)) = some e := by
  cases hf : es.find? (fun entry => decide (entry.ID = e.ID)) with
  | none =>
    have := List.find?_eq_none.mp hf e he
    simp at this
  | some e1 =>
    have hp := List.find?_some hf
    have hm := List.mem_of_find?_eq_some hf
    simp only [decide_eq_true_eq] at hp
    rw [entry_eq_of_ID_eq es hnodup e1 e hm he hp]

theorem versionOf_entry (env : Env) (inv : ResourceInventory)
    (hnodup : (inv.Entries.map ResourceRef.ID).Nodup) (e : ResourceRef) (he : e ∈ inv.Entries)
    (m : ObjMetadata) (hround : env.ObjMetadataString m = e.ID) :
    versionOf env inv m = e.Version := by
  simp [versionOf, hround, find_entry_by_ID inv.Entries hnodup e he]

theorem placeholders_of_entries (env : Env) (inv : ResourceInventory)
    (hnodup : (inv.Entries.map ResourceRef.ID).Nodup)
    (hround : ∀ e ∈ inv.Entries, ∀ m, env.ParseObjMetadata e.ID = .ok m →
      env.ObjMetadataString m = e.ID) :
    ∀ es : List ResourceRef, (∀ e ∈ es, e ∈ inv.Entries) →
      (es.filterMap (metaOf env)).map (placeholder env inv) =
        es.filterMap (entryPlaceholder env) := by
  intro es
  induction es with
  | nil => intro _; rfl
  | cons e rest ih =>
    intro hsub
    have he := hsub e (List.mem_cons_self _ _)
    have hrest := ih (fun e1 h1 => hsub e1 (List.mem_cons_of_mem _ h1))
    cases hp : env.ParseObjMetadata e.ID with
    | error err =>
      have h1 : metaOf env e = none := by simp [metaOf, hp]
      have h2 : entryPlaceholder env e = none := by simp [entryPlaceholder, hp]
      simp [List.filterMap_cons, h1, h2, hrest]
    | ok m =>
      have h1 : metaOf env e = some m := by simp [metaOf, hp]
      have h2 : entryPlaceholder env e = some (placeholder env inv m) := by
        simp [entryPlaceholder, hp, placeholder,
          versionOf_entry env inv hnodup e he m (hround e he m hp)]
      simp [List.filterMap_cons, h1, h2, hrest]

theorem nodup_metas (env : Env) (es : List ResourceRef)
    (hnodup : (es.map ResourceRef.ID).Nodup)
    (hround : ∀ e ∈ es, ∀ m, env.ParseObjMetadata e.ID = .ok m →
      env.ObjMetadataString m = e.ID) :
    (es.filterMap (metaOf env)).Nodup := by
  induction es with
  | nil => simp
  | cons e rest ih =>
    rw [List.map_cons, List.nodup_cons] at hnodup
    have hrest := ih hnodup.2 (fun e1 h1 => hround e1 (List.mem_cons_of_mem _ h1))
    cases hp : env.ParseObjMetadata e.ID with
    | error err =>
      have h1 : metaOf env e = none := by simp [metaOf, hp]
      simpa [List.filterMap_cons, h1] using hrest
    | ok m =>
      have h1 : metaOf env e = some m := by simp [metaOf, hp]
      simp only [List.filterMap_cons, h1, List.nodup_cons]
      refine ⟨?_, hrest⟩
      intro hmem
      obtain ⟨e1, he1, hp1⟩ := (mem_filterMap_metaOf env rest m).mp hmem
      have hid : e1.ID = e.ID := by
        rw [← hround e1 (List.mem_cons_of_mem _ he1) m hp1,
          ← hround e (List.mem_cons_self _ _) m hp]
      exact hnodup.1 (List.mem_map.mpr ⟨e1, he1, hid⟩)

theorem setDiff_nil (env : Env) (setA : List ObjMetadata) (h : setA.Nodup) :
    (env.SetDiff setA []).Perm setA := by
  rw [List.perm_ext_iff_of_nodup (env.setDiffNodup _ _) h]
  intro a
  simp [env.setDiffMem]

theorem length_filterMap_entryPlaceholder (env : Env) (es : List ResourceRef)
    (h : ∀ e ∈ es, ∃ m, env.ParseObjMetadata e.ID = .ok m) :
    (es.filterMap (entryPlaceholder env)).length = es.length := by
  induction es with
  | nil => rfl
  | cons e rest ih =>
    obtain ⟨m, hm⟩ := h e (List.mem_cons_self _ _)
    simp [List.filterMap_cons, entryPlaceholder, hm,
      ih (fun e1 h1 => h e1 (List.mem_cons_of_mem _ h1))]

/-- C9, as the code has it. For an inventory whose identity strings all parse, are
pairwise distinct and are each returned by formatting what they parse to,
`diffInventory` against the empty inventory returns one placeholder per entry, in the
order of the sort: the namespace, name, group and kind parsed from the entry and the
version recorded in it. -/
theorem C9_diffInventory_against_empty (env : Env) (inv : ResourceInventory)
    (hparse : ∀ e ∈ inv.Entries, ∃ m, env.ParseObjMetadata e.ID = .ok m)
    (hnodup : (inv.Entries.map ResourceRef.ID).Nodup)
    (hround : ∀ e ∈ inv.Entries, ∀ m, env.ParseObjMetadata e.ID = .ok m →
      env.ObjMetadataString m = e.ID) :
    ∃ objs, diffInventory env inv newInventory = .ok objs ∧
      objs.Perm (inv.Entries.filterMap (entryPlaceholder env)) ∧
      objs.length = inv.Entries.length := by
  obtain ⟨objs, hobjs, hperm⟩ := diffInventory_perm env inv newInventory hparse
    (by intro e he; cases he)
  have hp : objs.Perm (inv.Entries.filterMap (entryPlaceholder env)) := by
    have h1 : (newInventory.Entries.filterMap (metaOf env)) = [] := rfl
    rw [h1] at hperm
    have h2 := (setDiff_nil env _ (nodup_metas env inv.Entries hnodup hround)).map
      (placeholder env inv)
    rw [placeholders_of_entries env inv hnodup hround inv.Entries (fun e he => he)] at h2
    exact hperm.trans h2
  exact ⟨objs, hobjs, hp, by rw [hp.length_eq, length_filterMap_entryPlaceholder env _ hparse]⟩

/-- The statement of C9 fails: an inventory with an identity string that does not
parse makes `diffInventory` against the empty inventory return an error and no
object; and an inventory with two entries of one identity string gets one
placeholder, with the version of the first entry. -/
theorem C9_unparseable_entry_returns_error :
    diffInventory (exampleEnv [] [] [])
        { Entries := [{ ID := "default_objA_apps_Deployment", Version := "v1" },
                      { ID := "objB", Version := "v1" }] }
        newInventory =
      .error "unable to parse stored object metadata: objB" ∧
    diffInventory (exampleEnv [] [] [])
        { Entries := [{ ID := "default_objA_apps_Deployment", Version := "v1" },
                      { ID := "default_objA_apps_Deployment", Version := "v2" }] }
        newInventory =
      .ok [{ Group := "apps", Version := "v1", Kind := "Deployment", Namespace := "default",
             Name := "objA", Object := [] }] := by
  exact ⟨rfl, rfl⟩

/-- The amended C9 at the inventory objA@v1, objB@v1. -/
theorem C9_diffInventory_against_empty_witness :
    ∃ objs, diffInventory (exampleEnv [] [] [])
        { Entries := [{ ID := "default_objA_apps_Deployment", Version := "v1" },
                      { ID := "default_objB_apps_Deployment", Version := "v1" }] }
        newInventory = .ok objs ∧
      objs.Perm
        [{ Group := "apps", Version := "v1", Kind := "Deployment", Namespace := "default",
           Name := "objA", Object := [] },
         { Group := "apps", Version := "v1", Kind := "Deployment", Namespace := "default",
           Name := "objB", Object := [] }] ∧
      objs.length = 2 :=
  C9_diffInventory_against_empty (exampleEnv [] [] [])
    { Entries := [{ ID := "default_objA_apps_Deployment", Version := "v1" },
                  { ID := "default_objB_apps_Deployment", Version := "v1" }] }
    (by
      intro e he
      simp only [List.mem_cons, List.mem_singleton, List.not_mem_nil, or_false] at he
      rcases he with rfl | rfl <;> exact ⟨_, rfl⟩)
    (by decide)
    (by
      intro e he m hm
      simp only [List.mem_cons, List.mem_singleton, List.not_mem_nil, or_false] at he
      rcases he with rfl | rfl
      · cases hm
        rfl
      · cases hm
        rfl)

/-! ## The loop of `Builder.Diff` -/

theorem compareObject_failed_iff (env : Env) (obj : Unstructured) (err : Error) :
    compareObject env obj = .failed err ↔ env.ResourceManagerDiff obj = .error err := by
  unfold compareObject
  cases h : env.ResourceManagerDiff obj with
  | error e => simp
  | ok r =>
    obtain ⟨change, l, m⟩ := r
    simp only
    split
    · split <;> simp
    · simp

theorem managerError_of_compare (env : Env) (obj : Unstructured) :
    managerError env obj =
      match compareObject env obj with
      | .failed err => some err
      | _ => none := by
  unfold managerError
  cases h : env.ResourceManagerDiff obj with
  | error e =>
    rw [(compareObject_failed_iff env obj e).mpr h]
  | ok r =>
    cases hc : compareObject env obj with
    | failed err =>
      rw [(compareObject_failed_iff env obj err).mp hc] at h
      cases h
    | panicked => rfl
    | done c l m => rfl

theorem concat_append (l1 l2 : List String) : concat (l1 ++ l2) = concat l1 ++ concat l2 := by
  induction l1 with
  | nil => simp [concat]
  | cons s rest ih => simp [concat, ih, String.append_assoc]

/-- One step of the loop that does not return early. -/
theorem diffObject_ok (env : Env) (st : LoopState) (obj : Unstructured)
    (h : rendersWell env obj = true) :
    diffObject env st obj = .ok (stateAfter env st [obj]) := by
  unfold rendersWell at h
  simp only [diffObject, stateAfter, List.map_cons, List.map_nil, concat, List.any_cons,
    List.any_nil, Bool.or_false, List.filterMap_cons, List.filterMap_nil, block, changes,
    inventoryEntry, managerError_of_compare]
  cases hc : compareObject env obj with
  | failed err => simp
  | panicked => simp [hc] at h
  | done c l m =>
    simp only [hc] at h
    by_cases hconf : c.Action = ConfiguredAction
    · have hcr : c.Action ≠ CreatedAction := by
        rw [hconf]
        decide
      simp only [hconf, if_true] at h
      cases hw : writeYamls env l m with
      | error e => simp [hw] at h
      | ok files =>
        obtain ⟨lf, mf, d⟩ := files
        simp only [hw] at h
        cases hd : diff env lf mf with
        | error e => simp [hd] at h
        | ok text =>
          have hne : ConfiguredAction ≠ CreatedAction := by decide
          simp [reportChange, hconf, hne, hw, hd, nestedDiff, addObjectsToInventory,
            String.append_assoc]
    · by_cases hcr : c.Action = CreatedAction
      · have hne : CreatedAction ≠ ConfiguredAction := by decide
        simp [reportChange, hcr, hne, addObjectsToInventory]
      · simp [reportChange, hconf, hcr, addObjectsToInventory]

theorem stateAfter_cons (env : Env) (st : LoopState) (obj : Unstructured)
    (rest : List Unstructured) :
    stateAfter env (stateAfter env st [obj]) rest = stateAfter env st (obj :: rest) := by
  simp [stateAfter, concat, String.append_assoc, Bool.or_assoc, List.filterMap_cons]
  constructor
  · cases managerError env obj <;> simp
  · cases inventoryEntry env obj <;> simp

/-- The loop when no step returns early. -/
theorem diffLoop_ok (env : Env) (objects : List Unstructured) :
    ∀ st : LoopState, (∀ o ∈ objects, rendersWell env o = true) →
      diffLoop env objects st = .ok (stateAfter env st objects) := by
  induction objects with
  | nil =>
    intro st _
    simp [diffLoop, stateAfter, concat]
  | cons obj rest ih =>
    intro st h
    simp only [diffLoop, diffObject_ok env st obj (h obj (List.mem_cons_self _ _))]
    rw [ih _ (fun o ho => h o (List.mem_cons_of_mem _ ho)), stateAfter_cons]

/-- A step of the loop that returns a state renders well. -/
theorem rendersWell_of_diffObject (env : Env) (st st1 : LoopState) (obj : Unstructured)
    (h : diffObject env st obj = .ok st1) : rendersWell env obj = true := by
  unfold rendersWell
  unfold diffObject at h
  cases hc : compareObject env obj with
  | failed err => rfl
  | panicked => simp [hc] at h
  | done c l m =>
    simp only [hc] at h
    simp only
    by_cases hconf : c.Action = ConfiguredAction
    · simp only [hconf, if_true]
      cases hw : writeYamls env l m with
      | error e => simp [reportChange, hconf, hw] at h
      | ok files =>
        obtain ⟨lf, mf, d⟩ := files
        cases hd : diff env lf mf with
        | error e => simp [reportChange, hconf, hw, hd] at h
        | ok text => simp [hd]
    · simp [hconf]

/-- A loop that returns a state has rendered every object well. -/
theorem rendersWell_of_diffLoop (env : Env) (objects : List Unstructured) :
    ∀ st s : LoopState, diffLoop env objects st = .ok s →
      ∀ o ∈ objects, rendersWell env o = true := by
  induction objects with
  | nil => intro _ _ _ o ho; cases ho
  | cons obj rest ih =>
    intro st s h o ho
    cases hstep : diffObject env st obj with
    | error a => simp [diffLoop, hstep] at h
    | ok st1 =>
      simp only [diffLoop, hstep] at h
      rcases List.mem_cons.mp ho with rfl | hmem
      · exact rendersWell_of_diffObject env st st1 o hstep
      · exact ih st1 s h o hmem

theorem diffLoop_eq_ok_iff (env : Env) (objects : List Unstructured) (st s : LoopState) :
    diffLoop env objects st = .ok s ↔
      (∀ o ∈ objects, rendersWell env o = true) ∧ s = stateAfter env st objects := by
  constructor
  · intro h
    have hr := rendersWell_of_diffLoop env objects st s h
    rw [diffLoop_ok env objects st hr] at h
    exact ⟨hr, (Except.ok.inj h).symm⟩
  · rintro ⟨hr, rfl⟩
    exact diffLoop_ok env objects st hr

theorem diffLoop_append (env : Env) (pre rest : List Unstructured) :
    ∀ st : LoopState, diffLoop env (pre ++ rest) st =
      match diffLoop env pre st with
      | .error a => .error a
      | .ok s => diffLoop env rest s := by
  induction pre with
  | nil => intro st; simp [diffLoop]
  | cons obj pre1 ih =>
    intro st
    cases hstep : diffObject env st obj with
    | error a => simp [diffLoop, hstep]
    | ok st1 => simp [diffLoop, hstep, ih st1]

/-! ## The comparison pass -/

theorem stateAfter_initialState (env : Env) (objects : List Unstructured) :
    stateAfter env initialState objects =
      { output := concat (objects.map (block env))
        createdOrDrifted := objects.any (changes env)
        diffErrs := objects.filterMap (managerError env)
        newInventory := { Entries := objects.filterMap (inventoryEntry env) } } := by
  simp [stateAfter, initialState, newInventory]

theorem foldl_deletedLine (env : Env) (objs : List Unstructured) :
    ∀ out : String, objs.foldl (fun output object => output ++ deletedLine env object) out =
      out ++ concat (objs.map (deletedLine env)) := by
  induction objs with
  | nil => intro out; simp [concat]
  | cons o rest ih => intro out; simp [ih, concat, String.append_assoc]

/-- The prune step after a comparison error: nothing is appended. -/
theorem pruneStep_of_errors (env : Env) (b : Builder) (st : LoopState) (h : st.diffErrs ≠ []) :
    pruneStep env b st = .ok st.output := by
  simp [pruneStep, h]

/-- The run that reaches the last `return` statement. -/
theorem final_iff (env : Env) (b : Builder) (objects : List Unstructured)
    (output : String) (flag : Bool) (diffErrs : List Error)
    (hprep : desiredObjects env b = .ok objects) :
    diffOutcome env b = .final output flag diffErrs ↔
      (∀ o ∈ objects, rendersWell env o = true) ∧
      pruneStep env b (stateAfter env initialState objects) = .ok output ∧
      stopSpinner b = none ∧
      flag = objects.any (changes env) ∧
      diffErrs = objects.filterMap (managerError env) := by
  simp only [diffOutcome, hprep, comparisonPass]
  constructor
  · intro h
    cases hl : diffLoop env objects initialState with
    | error a =>
      rw [hl] at h
      cases a <;> simp at h
    | ok s =>
      rw [hl] at h
      obtain ⟨hr, hs⟩ := (diffLoop_eq_ok_iff env objects initialState s).mp hl
      simp only at h
      cases hp : pruneStep env b s with
      | error e => simp [hp] at h
      | ok out =>
        simp only [hp] at h
        cases hstop : stopSpinner b with
        | some e => simp [hstop] at h
        | none =>
          simp only [hstop, Outcome.final.injEq] at h
          obtain ⟨h1, h2, h3⟩ := h
          subst hs
          refine ⟨hr, ?_, rfl, ?_, ?_⟩
          · rw [hp, h1]
          · rw [← h2]
            simp [stateAfter, initialState]
          · rw [← h3]
            simp [stateAfter, initialState]
  · rintro ⟨hr, hp, hstop, hflag, herrs⟩
    rw [diffLoop_ok env objects initialState hr]
    simp only [hp, hstop, hflag, herrs]
    simp [stateAfter, initialState]

theorem Diff_of_final (env : Env) (b : Builder) (output : String) (flag : Bool)
    (diffErrs : List Error) (h : diffOutcome env b = .final output flag diffErrs) :
    Diff env b = some (output, flag, diffErrsValue diffErrs) := by
  simp [Diff, h]

theorem block_of_failed (env : Env) (o : Unstructured) (h : succeeded env o = false) :
    block env o = "" ∧ changes env o = false ∧ inventoryEntry env o = none := by
  unfold succeeded at h
  cases hm : managerError env o with
  | none => simp [hm] at h
  | some err =>
    have hc : compareObject env o = .failed err := by
      rw [compareObject_failed_iff]
      unfold managerError at hm
      cases hr : env.ResourceManagerDiff o with
      | error e =>
        rw [hr] at hm
        cases hm
        rfl
      | ok r =>
        rw [hr] at hm
        cases hm
    simp [block, changes, inventoryEntry, hc]

theorem managerError_of_succeeded (env : Env) (o : Unstructured) (h : succeeded env o = true) :
    managerError env o = none := by
  unfold succeeded at h
  cases hm : managerError env o with
  | none => rfl
  | some err => simp [hm] at h

/-- The loop over the objects whose comparison succeeded ends in the state the loop
over all objects ends in, without the errors. -/
theorem stateAfter_filter (env : Env) (st : LoopState) (objects : List Unstructured) :
    stateAfter env st (objects.filter (succeeded env)) =
      { stateAfter env st objects with diffErrs := st.diffErrs } := by
  induction objects generalizing st with
  | nil => simp [stateAfter]
  | cons o rest ih =>
    by_cases h : succeeded env o = true
    · rw [List.filter_cons_of_pos h, ← stateAfter_cons, ih, ← stateAfter_cons env st o rest]
      have hm := managerError_of_succeeded env o h
      simp [stateAfter, hm]
    · have hf : succeeded env o = false := by simpa using h
      rw [List.filter_cons_of_neg h, ih]
      obtain ⟨h1, h2, h3⟩ := block_of_failed env o hf
      simp [stateAfter, concat, h1, h2, h3, List.filterMap_cons]

theorem filterMap_managerError_length (env : Env) (objects : List Unstructured) :
    (objects.filterMap (managerError env)).length =
      (objects.filter (fun o => !succeeded env o)).length := by
  induction objects with
  | nil => rfl
  | cons o rest ih =>
    cases hm : managerError env o with
    | none => simp [List.filterMap_cons, hm, succeeded, ih, List.filter_cons]
    | some err => simp [List.filterMap_cons, hm, succeeded, ih, List.filter_cons]

theorem filterMap_managerError_ne_nil (env : Env) (objects : List Unstructured)
    (h : ∃ o ∈ objects, succeeded env o = false) :
    objects.filterMap (managerError env) ≠ [] := by
  obtain ⟨o, ho, hf⟩ := h
  unfold succeeded at hf
  cases hm : managerError env o with
  | none => simp [hm] at hf
  | some err =>
    intro hnil
    have : err ∈ objects.filterMap (managerError env) := List.mem_filterMap.mpr ⟨o, ho, hm⟩
    rw [hnil] at this
    cases this

theorem pruneStep_output (env : Env) (b : Builder) (st : LoopState) (output : String)
    (h : pruneStep env b st = .ok output) :
    ∃ deleted : List Unstructured, output = st.output ++ concat (deleted.map (deletedLine env)) ∧
      (deleted = [] ∨
        (b.kustomization.Spec.Prune = true ∧ st.diffErrs = [] ∧
          ∃ inv, b.kustomization.Status.Inventory = some inv ∧
            diffInventory env inv st.newInventory = .ok deleted)) := by
  unfold pruneStep at h
  split at h
  · rename_i hcond
    split at h
    · exact ⟨[], by simpa [concat] using (Except.ok.inj h).symm, Or.inl rfl⟩
    · rename_i inv hinv
      cases hd : diffInventory env inv st.newInventory with
      | error e => simp [hd] at h
      | ok dels =>
        simp only [hd, Except.ok.injEq] at h
        exact ⟨dels, by rw [← h, foldl_deletedLine], Or.inr ⟨hcond.1, hcond.2, inv, hinv, hd⟩⟩
  · exact ⟨[], by simpa [concat] using (Except.ok.inj h).symm, Or.inl rfl⟩

/-! ## C4 and C10 -/

/-- A run that reaches the last `return` statement of `Builder.Diff` has skipped the
objects for which the resource manager returned an error. -/
theorem skipped_of_final (env : Env) (b : Builder)
    (objects : List Unstructured) (output : String) (flag : Bool) (diffErrs : List Error)
    (hprep : desiredObjects env b = .ok objects)
    (hfinal : diffOutcome env b = .final output flag diffErrs) :
    ∃ s0, diffLoop env (objects.filter (succeeded env)) initialState = .ok s0 ∧
      s0.output = concat ((objects.filter (succeeded env)).map (block env)) ∧
      (∃ deleted, output = s0.output ++ deleted) ∧
      ((∃ o ∈ objects, succeeded env o = false) → output = s0.output) ∧
      flag = s0.createdOrDrifted ∧
      diffErrs = objects.filterMap (managerError env) ∧
      diffErrs.length = (objects.filter (fun o => !succeeded env o)).length ∧
      Diff env b = some (output, flag, diffErrsValue diffErrs) := by
  obtain ⟨hr, hp, _, hflag, herrs⟩ :=
    (final_iff env b objects output flag diffErrs hprep).mp hfinal
  have hr0 : ∀ o ∈ objects.filter (succeeded env), rendersWell env o = true :=
    fun o ho => hr o (List.mem_of_mem_filter ho)
  have hs0 : stateAfter env initialState (objects.filter (succeeded env)) =
      { stateAfter env initialState objects with diffErrs := [] } := by
    rw [stateAfter_filter]
    rfl
  refine ⟨_, diffLoop_ok env _ initialState hr0, ?_, ?_, ?_, ?_, herrs, ?_,
    Diff_of_final env b output flag diffErrs hfinal⟩
  · simp [stateAfter, initialState]
  · obtain ⟨deleted, hout, _⟩ := pruneStep_output env b _ output hp
    exact ⟨concat (deleted.map (deletedLine env)), by rw [hout, hs0]⟩
  · intro hfail
    have hne : (stateAfter env initialState objects).diffErrs ≠ [] := by
      simpa [stateAfter, initialState] using filterMap_managerError_ne_nil env objects hfail
    rw [pruneStep_of_errors env b _ hne] at hp
    rw [hs0, ← Except.ok.inj hp]
  · rw [hflag, hs0]
    simp [stateAfter, initialState]
  · rw [herrs, filterMap_managerError_length]

/-- C4. In a run of `Builder.Diff` in which the resource manager returns an error for
at least one object, the prune step appends nothing and does not depend on the old
inventory: whatever the prune flag and the old inventory are, the run returns the
same; after the loop the prune step returns the output of the loop unchanged; and
every report the run returns is empty or the concatenation of the created and
drifted blocks alone. -/
theorem C4_no_prune_after_comparison_error (env : Env) (b : Builder)
    (objects : List Unstructured)
    (hprep : desiredObjects env b = .ok objects)
    (hfail : ∃ o ∈ objects, succeeded env o = false) :
    (∀ k : Kustomization, Diff env { b with kustomization := k } = Diff env b) ∧
    (∀ (k : Kustomization) (s : LoopState), diffLoop env objects initialState = .ok s →
      pruneStep env { b with kustomization := k } s = .ok s.output) ∧
    (∀ report flag err, Diff env b = some (report, flag, err) →
      report = "" ∨ report = concat (objects.map (block env))) := by
  have hprune : ∀ (k : Kustomization) (s : LoopState),
      diffLoop env objects initialState = .ok s →
      pruneStep env { b with kustomization := k } s = .ok s.output := by
    intro k s hs
    obtain ⟨_, rfl⟩ := (diffLoop_eq_ok_iff env objects initialState s).mp hs
    apply pruneStep_of_errors
    simpa [stateAfter, initialState] using filterMap_managerError_ne_nil env objects hfail
  refine ⟨?_, hprune, ?_⟩
  · intro k
    have hprep2 : desiredObjects env { b with kustomization := k } = .ok objects := hprep
    have hb : b = { b with kustomization := b.kustomization } := rfl
    have key : ∀ k1 : Kustomization,
        diffOutcome env { b with kustomization := k1 } =
          match diffLoop env objects initialState with
          | .error (.ret c err) => .early c err
          | .error .panic => .panic
          | .ok s =>
            match stopSpinner b with
            | some err => .early s.createdOrDrifted err
            | none => .final s.output s.createdOrDrifted s.diffErrs := by
      intro k1
      have hp1 : desiredObjects env { b with kustomization := k1 } = .ok objects := hprep
      simp only [diffOutcome, hp1, comparisonPass]
      cases hl : diffLoop env objects initialState with
      | error a => cases a <;> rfl
      | ok s =>
        simp only [hprune k1 s hl]
        rfl
    have h1 := key k
    have h2 := key b.kustomization
    rw [← hb] at h2
    simp only [Diff, h1, h2]
  · intro report flag err hdiff
    cases ho : diffOutcome env b with
    | early c e =>
      simp only [Diff, ho, Option.some.injEq, Prod.mk.injEq] at hdiff
      exact Or.inl hdiff.1.symm
    | panic => simp [Diff, ho] at hdiff
    | final output flag1 diffErrs =>
      simp only [Diff, ho, Option.some.injEq, Prod.mk.injEq] at hdiff
      obtain ⟨_, hp, _, _, _⟩ := (final_iff env b objects output flag1 diffErrs hprep).mp ho
      have hne : (stateAfter env initialState objects).diffErrs ≠ [] := by
        simpa [stateAfter, initialState] using filterMap_managerError_ne_nil env objects hfail
      rw [pruneStep_of_errors env b _ hne] at hp
      right
      rw [← hdiff.1, ← Except.ok.inj hp]
      simp [stateAfter, initialState]

/-- C4 at the desired objects objA (created) and broken (the dry run fails), with
pruning enabled and an old inventory that holds objB: no deleted line is written. -/
theorem C4_no_prune_witness :
    Diff
        (exampleEnv
          [exampleObject "Deployment" "objA" [], exampleObject "Deployment" "broken" []] [] [])
        (exampleBuilder true
          (some { Entries := [{ ID := "default_objB_apps_Deployment", Version := "v1" }] })) =
      some ("► Deployment/default/objA created\n", true,
        some (.multi ["dry-run failed for Deployment/default/broken"])) := by
  have h := (C4_no_prune_after_comparison_error
    (exampleEnv
      [exampleObject "Deployment" "objA" [], exampleObject "Deployment" "broken" []] [] [])
    (exampleBuilder false none)
    [exampleObject "Deployment" "objA" [], exampleObject "Deployment" "broken" []]
    rfl ⟨exampleObject "Deployment" "broken" [], by simp, rfl⟩).1
    (exampleBuilder true
      (some { Entries := [{ ID := "default_objB_apps_Deployment", Version := "v1" }] })).kustomization
  exact h.trans rfl

theorem changes_iff (env : Env) (o : Unstructured) :
    changes env o = true ↔
      ∃ c l m, compareObject env o = .done c l m ∧
        (c.Action = CreatedAction ∨ c.Action = ConfiguredAction) := by
  unfold changes
  cases hc : compareObject env o with
  | failed err => simp
  | panicked => simp
  | done c l m => simp

/-- C10. In a run of `Builder.Diff` that reaches its last `return` statement, the
returned flag is true exactly when some object was compared without error with final
action (after the sops override) `created` or `configured`. A run that finds only an
object to delete returns false. -/
theorem C10_flag_iff_created_or_configured (env : Env) (b : Builder)
    (objects : List Unstructured) (output : String) (flag : Bool) (diffErrs : List Error)
    (hprep : desiredObjects env b = .ok objects)
    (hfinal : diffOutcome env b = .final output flag diffErrs) :
    (Diff env b = some (output, flag, diffErrsValue diffErrs) ∧
      (flag = true ↔
        ∃ o ∈ objects, ∃ c l m, compareObject env o = .done c l m ∧
          (c.Action = CreatedAction ∨ c.Action = ConfiguredAction))) ∧
    Diff (exampleEnv [exampleObject "Deployment" "objB" []] [] [])
        (exampleBuilder true
          (some { Entries := [{ ID := "default_objA_apps_Deployment", Version := "v1" },
                              { ID := "default_objB_apps_Deployment", Version := "v1" }] })) =
      some ("► Deployment/default/objA deleted\n", false, none) := by
  refine ⟨⟨Diff_of_final env b output flag diffErrs hfinal, ?_⟩, rfl⟩
  obtain ⟨_, _, _, hflag, _⟩ := (final_iff env b objects output flag diffErrs hprep).mp hfinal
  rw [hflag, List.any_eq_true]
  constructor
  · rintro ⟨o, ho, hc⟩
    exact ⟨o, ho, (changes_iff env o).mp hc⟩
  · rintro ⟨o, ho, hc⟩
    exact ⟨o, ho, (changes_iff env o).mpr hc⟩

/-- C10 at the desired objects objB (unchanged) and objA (created): the flag is true
and objA is the object with final action `created`. -/
theorem C10_flag_witness :
    Diff
        (exampleEnv [exampleObject "Deployment" "objB" [], exampleObject "Deployment" "objA" []]
          [] [])
        (exampleBuilder false none) =
      some ("► Deployment/default/objA created\n", true, none) ∧
    ∃ o ∈ [exampleObject "Deployment" "objB" [], exampleObject "Deployment" "objA" []],
      ∃ c l m, compareObject
          (exampleEnv [exampleObject "Deployment" "objB" [], exampleObject "Deployment" "objA" []]
            [] []) o = .done c l m ∧
        (c.Action = CreatedAction ∨ c.Action = ConfiguredAction) := by
  have h := (C10_flag_iff_created_or_configured
    (exampleEnv [exampleObject "Deployment" "objB" [], exampleObject "Deployment" "objA" []] [] [])
    (exampleBuilder false none)
    [exampleObject "Deployment" "objB" [], exampleObject "Deployment" "objA" []]
    "► Deployment/default/objA created\n" true [] rfl rfl).1
  exact ⟨h.1, h.2.mp rfl⟩

theorem reportChange_render_failure (env : Env) (st : LoopState) (change : ChangeSetEntry)
    (l m : Option Unstructured) (err : Error) (hconf : change.Action = ConfiguredAction)
    (hfail : writeYamls env l m = .error err ∨
      ∃ lf mf d, writeYamls env l m = .ok (lf, mf, d) ∧ diff env lf mf = .error err) :
    reportChange env st change l m = .error (.ret st.createdOrDrifted err) := by
  have hne : ConfiguredAction ≠ CreatedAction := by decide
  rcases hfail with hw | ⟨lf, mf, d, hw, hd⟩
  · simp [reportChange, hconf, hne, hw]
  · simp [reportChange, hconf, hne, hw, hd]

/-- C6, as the code has it. When, after the comparison pass has started, `writeYamls`
or `diff` fails for a record whose final action is `configured`, or `diffInventory`
fails in the prune step, `Builder.Diff` returns the empty report, the flag as it was
set until then, and that error alone: the failure ends the run, and the text written
until then is not returned. -/
theorem C6_failure_returns_empty_report (env : Env) (b : Builder)
    (objects : List Unstructured) (flag : Bool) (err : Error)
    (hprep : desiredObjects env b = .ok objects)
    (hfail :
      (∃ pre obj rest s change l m, objects = pre ++ obj :: rest ∧
        diffLoop env pre initialState = .ok s ∧ flag = s.createdOrDrifted ∧
        compareObject env obj = .done change l m ∧ change.Action = ConfiguredAction ∧
        (writeYamls env l m = .error err ∨
          ∃ lf mf d, writeYamls env l m = .ok (lf, mf, d) ∧ diff env lf mf = .error err)) ∨
      (∃ s inv, diffLoop env objects initialState = .ok s ∧ flag = s.createdOrDrifted ∧
        s.diffErrs = [] ∧ b.kustomization.Spec.Prune = true ∧
        b.kustomization.Status.Inventory = some inv ∧
        diffInventory env inv s.newInventory = .error err)) :
    Diff env b = some ("", flag, some (.single err)) := by
  rcases hfail with ⟨pre, obj, rest, s, change, l, m, hobjs, hpre, hflag, hcmp, hconf, hf⟩ |
    ⟨s, inv, hloop, hflag, herrs, hprune, hinv, hd⟩
  · have hstep : diffObject env s obj = .error (.ret s.createdOrDrifted err) := by
      simp only [diffObject, hcmp]
      exact reportChange_render_failure env s change l m err hconf hf
    have hloop : diffLoop env objects initialState = .error (.ret s.createdOrDrifted err) := by
      rw [hobjs, diffLoop_append, hpre]
      simp [diffLoop, hstep]
    simp [Diff, diffOutcome, hprep, comparisonPass, hloop, hflag]
  · have hp : pruneStep env b s = .error err := by
      simp [pruneStep, hprune, herrs, hinv, hd]
    simp [Diff, diffOutcome, hprep, comparisonPass, hloop, hp, hflag]

/-- The statement of C6 fails: on a full disk, with the desired objects objA (created)
and drifted (configured), the loop has written the created line of objA when
`writeYamls` fails for drifted, and `Builder.Diff` returns the empty report; with
drifted before objA the run ends before objA is compared (the flag stays false); and
an old inventory with an identity string that does not parse empties the report as
well. -/
theorem C6_failures_discard_the_report :
    diffLoop (fullDiskEnv [] [] []) [exampleObject "Deployment" "objA" []] initialState =
      .ok { output := "► Deployment/default/objA created\n"
            createdOrDrifted := true
            diffErrs := []
            newInventory := { Entries := [{ ID := "default_objA_apps_Deployment",
                                            Version := "v1" }] } } ∧
    Diff
        (fullDiskEnv
          [exampleObject "Deployment" "objA" [], exampleObject "ConfigMap" "drifted" []] [] [])
        (exampleBuilder false none) =
      some ("", true, some (.single "no space left on device")) ∧
    Diff
        (fullDiskEnv
          [exampleObject "ConfigMap" "drifted" [], exampleObject "Deployment" "objA" []] [] [])
        (exampleBuilder false none) =
      some ("", false, some (.single "no space left on device")) ∧
    Diff (exampleEnv [exampleObject "Deployment" "objA" []] [] [])
        (exampleBuilder true (some { Entries := [{ ID := "objB", Version := "v1" }] })) =
      some ("", true, some (.single "unable to parse stored object metadata: objB")) := by
  exact ⟨rfl, rfl, rfl, rfl⟩

/-- The amended C6 on a full disk, at the desired objects objA (created) and drifted
(configured). -/
theorem C6_failure_witness :
    Diff
        (fullDiskEnv
          [exampleObject "Deployment" "objA" [], exampleObject "ConfigMap" "drifted" []] [] [])
        (exampleBuilder false none) =
      some ("", true, some (.single "no space left on device")) :=
  C6_failure_returns_empty_report
    (fullDiskEnv
      [exampleObject "Deployment" "objA" [], exampleObject "ConfigMap" "drifted" []] [] [])
    (exampleBuilder false none)
    [exampleObject "Deployment" "objA" [], exampleObject "ConfigMap" "drifted" []]
    true "no space left on device" rfl
    (Or.inl ⟨[exampleObject "Deployment" "objA" []], exampleObject "ConfigMap" "drifted" [], [],
      _, _, _, _, rfl, rfl, rfl, rfl, rfl, Or.inl rfl⟩)

theorem pruneStep_eq (env : Env) (b : Builder) (objects : List Unstructured)
    (hcmp : ∀ o ∈ objects, succeeded env o = true)
    (hinv : ∀ inv, b.kustomization.Spec.Prune = true →
      b.kustomization.Status.Inventory = some inv →
      ∃ deleted, diffInventory env inv { Entries := objects.filterMap (inventoryEntry env) } =
        .ok deleted) :
    pruneStep env b (stateAfter env initialState objects) =
      .ok (concat (objects.map (block env)) ++
        concat ((deletedObjects env b objects).map (deletedLine env))) := by
  have herrs : objects.filterMap (managerError env) = [] := by
    rw [List.filterMap_eq_nil_iff]
    exact fun o ho => managerError_of_succeeded env o (hcmp o ho)
  rw [stateAfter_initialState]
  unfold pruneStep deletedObjects
  by_cases hp : b.kustomization.Spec.Prune = true
  · cases hi : b.kustomization.Status.Inventory with
    | none => simp [hp, herrs, concat]
    | some inv =>
      obtain ⟨deleted, hd⟩ := hinv inv hp hi
      simp [hp, herrs, hd, foldl_deletedLine]
  · simp [hp, concat]

/-- C7, as the code has it. In a run of `Builder.Diff` in which no comparison and no
rendering step fails, `diffInventory` returns no error when the prune step calls it,
and the spinner stops, the report is the concatenation, in the order of the desired
objects, of one block per object (the created line, the drifted line followed by the
field-level diff block, or nothing), followed by one deleted line per object that
`diffInventory` returned, in that order; the error is `nil`. For the desired objects
objA (new) and objB (unchanged) the report is the created line of objA. -/
theorem C7_report_is_blocks_then_deleted_lines (env : Env) (b : Builder)
    (objects : List Unstructured)
    (hprep : desiredObjects env b = .ok objects)
    (hcmp : ∀ o ∈ objects, succeeded env o = true)
    (hrender : ∀ o ∈ objects, rendersWell env o = true)
    (hinv : ∀ inv, b.kustomization.Spec.Prune = true →
      b.kustomization.Status.Inventory = some inv →
      ∃ deleted, diffInventory env inv { Entries := objects.filterMap (inventoryEntry env) } =
        .ok deleted)
    (hstop : stopSpinner b = none) :
    Diff env b =
        some (concat (objects.map (block env)) ++
            concat ((deletedObjects env b objects).map (deletedLine env)),
          objects.any (changes env), none) ∧
    Diff
        (exampleEnv [exampleObject "Deployment" "objA" [], exampleObject "Deployment" "objB" []]
          [] [])
        (exampleBuilder false none) =
      some ("► Deployment/default/objA created\n", true, none) := by
  refine ⟨?_, rfl⟩
  have herrs : objects.filterMap (managerError env) = [] := by
    rw [List.filterMap_eq_nil_iff]
    exact fun o ho => managerError_of_succeeded env o (hcmp o ho)
  have hfinal := (final_iff env b objects _ (objects.any (changes env))
    (objects.filterMap (managerError env)) hprep).mpr
    ⟨hrender, pruneStep_eq env b objects hcmp hinv, hstop, rfl, rfl⟩
  rw [Diff_of_final env b _ _ _ hfinal, herrs]
  rfl

/-- The statement of C7 fails: no comparison and no rendering step fails for the
desired object objA (created), pruning is enabled and the old inventory holds an
identity string that does not parse; the report is empty, not the created line of
objA. It is empty as well when the spinner fails to stop. -/
theorem C7_inventory_failure_empties_the_report :
    succeeded (exampleEnv [] [] []) (exampleObject "Deployment" "objA" []) = true ∧
    rendersWell (exampleEnv [] [] []) (exampleObject "Deployment" "objA" []) = true ∧
    block (exampleEnv [] [] []) (exampleObject "Deployment" "objA" []) =
      "► Deployment/default/objA created\n" ∧
    Diff (exampleEnv [exampleObject "Deployment" "objA" []] [] [])
        (exampleBuilder true (some { Entries := [{ ID := "objB", Version := "v1" }] })) =
      some ("", true, some (.single "unable to parse stored object metadata: objB")) ∧
    Diff (exampleEnv [exampleObject "Deployment" "objA" []] [] [])
        { exampleBuilder false none with
          spinner := some { Start := none, Stop := some "terminal closed" } } =
      some ("", true, some (.single "failed to stop spinner: terminal closed")) := by
  exact ⟨rfl, rfl, rfl, rfl, rfl⟩

/-- The amended C7 at the desired objects objA (created), the ConfigMap drifted
(configured) and objB (unchanged), with pruning enabled and an old inventory that
holds objB and objC. -/
theorem C7_report_witness :
    Diff
        (exampleEnv
          [exampleObject "Deployment" "objA" [], exampleObject "ConfigMap" "drifted" [],
            exampleObject "Deployment" "objB" []] [] [])
        (exampleBuilder true
          (some { Entries := [{ ID := "default_objB_apps_Deployment", Version := "v1" },
                              { ID := "default_objC_apps_Deployment", Version := "v1" }] })) =
      some ("► Deployment/default/objA created\n► ConfigMap/default/drifted drifted\n(diff)\n" ++
          "► Deployment/default/objC deleted\n", true, none) :=
  (C7_report_is_blocks_then_deleted_lines
    (exampleEnv
      [exampleObject "Deployment" "objA" [], exampleObject "ConfigMap" "drifted" [],
        exampleObject "Deployment" "objB" []] [] [])
    (exampleBuilder true
      (some { Entries := [{ ID := "default_objB_apps_Deployment", Version := "v1" },
                          { ID := "default_objC_apps_Deployment", Version := "v1" }] }))
    [exampleObject "Deployment" "objA" [], exampleObject "ConfigMap" "drifted" [],
      exampleObject "Deployment" "objB" []]
    rfl
    (by
      intro o ho
      simp only [List.mem_cons, List.mem_singleton, List.not_mem_nil, or_false] at ho
      rcases ho with rfl | rfl | rfl <;> rfl)
    (by
      intro o ho
      simp only [List.mem_cons, List.mem_singleton, List.not_mem_nil, or_false] at ho
      rcases ho with rfl | rfl | rfl <;> rfl)
    (by
      intro inv _ hinv
      cases hinv
      exact ⟨_, rfl⟩)
    rfl).1.trans rfl

/-! ## C3 -/

theorem succeeded_of_no_errors (env : Env) (objects : List Unstructured)
    (h : objects.filterMap (managerError env) = []) :
    ∀ o ∈ objects, succeeded env o = true := by
  intro o ho
  have hm := List.filterMap_eq_nil_iff.mp h o ho
  simp [succeeded, hm]

/-- The prune step returns no error when `diffInventory` returns none where the step
calls it, that is, after a loop without a comparison error. -/
theorem pruneStep_returns (env : Env) (b : Builder) (objects : List Unstructured)
    (hinv : ∀ inv, b.kustomization.Spec.Prune = true →
      (∀ o ∈ objects, succeeded env o = true) →
      b.kustomization.Status.Inventory = some inv →
      ∃ deleted, diffInventory env inv { Entries := objects.filterMap (inventoryEntry env) } =
        .ok deleted) :
    ∃ output, pruneStep env b (stateAfter env initialState objects) = .ok output := by
  by_cases herrs : objects.filterMap (managerError env) = []
  · have hall := succeeded_of_no_errors env objects herrs
    exact ⟨_, pruneStep_eq env b objects hall (fun inv hp hi => hinv inv hp hall hi)⟩
  · refine ⟨_, pruneStep_of_errors env b _ ?_⟩
    simpa [stateAfter, initialState] using herrs

/-- C3, as the code has it. In a run of `Builder.Diff` in which no rendering step
fails (`writeYamls` and `diff` return no error for every record whose final action is
`configured`, and the sops override does not panic), `diffInventory` returns no error
where the prune step calls it, and the spinner stops, the objects for which the
resource manager returns an error are skipped and the run goes on: `Diff` returns; the
loop over the other objects alone ends in a state whose output the report begins
with, and equals when an object failed; the flag is the flag of that loop; and the
returned error aggregates the errors of the failing objects, one each, in order. -/
theorem C3_failed_comparisons_are_skipped (env : Env) (b : Builder)
    (objects : List Unstructured)
    (hprep : desiredObjects env b = .ok objects)
    (hrender : ∀ o ∈ objects, rendersWell env o = true)
    (hinv : ∀ inv, b.kustomization.Spec.Prune = true →
      (∀ o ∈ objects, succeeded env o = true) →
      b.kustomization.Status.Inventory = some inv →
      ∃ deleted, diffInventory env inv { Entries := objects.filterMap (inventoryEntry env) } =
        .ok deleted)
    (hstop : stopSpinner b = none) :
    ∃ s0 output, diffLoop env (objects.filter (succeeded env)) initialState = .ok s0 ∧
      s0.output = concat ((objects.filter (succeeded env)).map (block env)) ∧
      Diff env b =
        some (output, s0.createdOrDrifted, diffErrsValue (objects.filterMap (managerError env))) ∧
      (∃ deleted, output = s0.output ++ deleted) ∧
      ((∃ o ∈ objects, succeeded env o = false) → output = s0.output) ∧
      (objects.filterMap (managerError env)).length =
        (objects.filter (fun o => !succeeded env o)).length := by
  obtain ⟨output, hp⟩ := pruneStep_returns env b objects hinv
  have hfinal : diffOutcome env b =
      .final output (objects.any (changes env)) (objects.filterMap (managerError env)) :=
    (final_iff env b objects output _ _ hprep).mpr ⟨hrender, hp, hstop, rfl, rfl⟩
  obtain ⟨s0, h1, h2, h3, h4, h5, _, h7, h8⟩ :=
    skipped_of_final env b objects output _ _ hprep hfinal
  refine ⟨s0, output, h1, h2, ?_, h3, h4, h7⟩
  rw [h8, h5]

/-- The statement of C3 fails: with the desired objects objA (created), broken (the
dry run fails) and drifted (configured), on a full disk, `Builder.Diff` returns the
empty report and the write error alone, although the comparison of objA succeeded
and the one of broken failed; for objA and broken alone it returns the created line
and the aggregated error. The report and the aggregated error are lost as well when
the spinner fails to stop, and nothing is returned when the sops override panics on a
desired `data` value that is no string; with no failing object, an old inventory with
an identity string that does not parse empties the report. -/
theorem C3_render_failure_drops_report_and_errors :
    Diff
        (fullDiskEnv
          [exampleObject "Deployment" "objA" [], exampleObject "Deployment" "broken" [],
            exampleObject "ConfigMap" "drifted" []] [] [])
        (exampleBuilder false none) =
      some ("", true, some (.single "no space left on device")) ∧
    Diff
        (fullDiskEnv
          [exampleObject "Deployment" "objA" [], exampleObject "Deployment" "broken" []] [] [])
        (exampleBuilder false none) =
      some ("► Deployment/default/objA created\n", true,
        some (.multi ["dry-run failed for Deployment/default/broken"])) ∧
    Diff
        (exampleEnv
          [exampleObject "Deployment" "objA" [], exampleObject "Deployment" "broken" []] [] [])
        { exampleBuilder false none with
          spinner := some { Start := none, Stop := some "terminal closed" } } =
      some ("", true, some (.single "failed to stop spinner: terminal closed")) ∧
    Diff
        (exampleEnv
          [exampleObject "Deployment" "objA" [], exampleObject "Deployment" "broken" [],
            exampleObject "Secret" "creds" [("data", Any.map [("a", Any.other 0)])]] [] [])
        (exampleBuilder false none) = none ∧
    Diff (exampleEnv [exampleObject "Deployment" "objA" []] [] [])
        (exampleBuilder true (some { Entries := [{ ID := "objB", Version := "v1" }] })) =
      some ("", true, some (.single "unable to parse stored object metadata: objB")) := by
  exact ⟨rfl, rfl, rfl, rfl, rfl⟩

/-- The amended C3 at the desired objects objA (created), broken (the dry run fails),
the ConfigMap drifted (configured) and objB (unchanged), with pruning enabled and an
old inventory that holds objC: the run goes on after broken and returns the lines of
objA and drifted, no deleted line, and the error of broken. -/
theorem C3_failed_comparisons_witness :
    Diff
        (exampleEnv
          [exampleObject "Deployment" "objA" [], exampleObject "Deployment" "broken" [],
            exampleObject "ConfigMap" "drifted" [], exampleObject "Deployment" "objB" []] [] [])
        (exampleBuilder true
          (some { Entries := [{ ID := "default_objC_apps_Deployment", Version := "v1" }] })) =
      some ("► Deployment/default/objA created\n► ConfigMap/default/drifted drifted\n(diff)\n",
        true, some (.multi ["dry-run failed for Deployment/default/broken"])) := by
  obtain ⟨s0, output, hloop, _, hdiff, _, hfail, _⟩ := C3_failed_comparisons_are_skipped
    (exampleEnv
      [exampleObject "Deployment" "objA" [], exampleObject "Deployment" "broken" [],
        exampleObject "ConfigMap" "drifted" [], exampleObject "Deployment" "objB" []] [] [])
    (exampleBuilder true
      (some { Entries := [{ ID := "default_objC_apps_Deployment", Version := "v1" }] }))
    [exampleObject "Deployment" "objA" [], exampleObject "Deployment" "broken" [],
      exampleObject "ConfigMap" "drifted" [], exampleObject "Deployment" "objB" []]
    rfl
    (by
      intro o ho
      simp only [List.mem_cons, List.mem_singleton, List.not_mem_nil, or_false] at ho
      rcases ho with rfl | rfl | rfl | rfl <;> rfl)
    (by
      intro inv _ hall _
      have hb := hall (exampleObject "Deployment" "broken" []) (by simp)
      exact absurd hb (by decide))
    rfl
  have hs0 : s0 =
      { output := "► Deployment/default/objA created\n► ConfigMap/default/drifted drifted\n(diff)\n"
        createdOrDrifted := true
        diffErrs := []
        newInventory :=
          { Entries := [{ ID := "default_objA_apps_Deployment", Version := "v1" },
                        { ID := "default_drifted__ConfigMap", Version := "v1" },
                        { ID := "default_objB_apps_Deployment", Version := "v1" }] } } :=
    Except.ok.inj (hloop.symm.trans rfl)
  have hout := hfail ⟨exampleObject "Deployment" "broken" [], by simp, rfl⟩
  subst hs0
  subst hout
  exact hdiff

end Build
